import Mathlib

/-!
Shallow embedding of the e-pharmacy backend (FastAPI + SQLAlchemy) in Lean 4.

Conventions of the embedding:
* timestamps (`datetime`) are integers counting seconds; `datetime.now()`
  becomes an explicit `now : ℤ` parameter;
* `timedelta.total_seconds() / 3600` becomes exact rational division;
* `timedelta.days` becomes flooring integer division by 86400 (Python's
  `.days` floors toward minus infinity, as `Int.fdiv` does);
* money (`DECIMAL`/float columns) is modelled with `ℚ`;
* nullable columns are `Option`; Python's `x or d` on a numeric column is
  `none ↦ d` and `some 0 ↦ d` (0 is falsy in Python);
* ORM tables are lists of records, `.first()` is `List.find?`, row mutation
  through a fetched object is replacement of the first matching row;
* `HTTPException` raising is the `Except` monad with an error inductive that
  remembers the raise site; `db.rollback()` on failure means the pre-state
  is kept.
-/

/-- The `RefundPolicy` enum from `app/models/models.py`. -/
inductive RefundPolicy where
  | full
  | partialRefund
  | no_refund
deriving DecidableEq, Repr

/-- The `RefundStatus` enum from `app/models/models.py`. -/
inductive RefundStatus where
  | pending
  | completed
  | failed
deriving DecidableEq, Repr

/-- The `orders` table row (`class Order`), restricted to the columns the verified
routes read or write.  `status` is a plain string column in the schema. -/
structure Order where
  order_id : ℕ
  order_number : String
  customer_id : ℕ
  total_amount : ℚ
  shipping_charges : ℚ
  tax_amount : ℚ
  discount_amount : ℚ
  final_amount : ℚ
  order_type : String
  shipping_address_id : ℕ
  payment_method : String
  status : String
  cancellation_fee_percentage : Option ℚ
  ready_at : Option ℤ
  cancelled_at : Option ℤ
  cancellation_reason : Option String
  created_at : ℤ
  updated_at : ℤ
deriving DecidableEq, Repr

/-- The `products` table row (`class Product`), relevant columns. -/
structure Product where
  product_id : ℕ
  name : String
  price : ℚ
  requires_prescription : Bool
deriving DecidableEq, Repr

/-- The `cart_items` table row (`class CartItem`). -/
structure CartItem where
  cart_item_id : ℕ
  customer_id : ℕ
  product_id : ℕ
  quantity : ℤ
deriving DecidableEq, Repr

/-- The `pharmacy_inventory` table row (`class PharmacyInventory`), relevant
columns. -/
structure PharmacyInventory where
  inventory_id : ℕ
  product_id : ℕ
  quantity_in_stock : ℤ
  is_available : Bool
deriving DecidableEq, Repr

/-- The `prescriptions` table row (`class Prescription`), relevant columns;
`status` is compared against the literal `"approved"` by the order route. -/
structure Prescription where
  prescription_id : ℕ
  customer_id : ℕ
  status : String
deriving DecidableEq, Repr

/-- The `customer_addresses` table row (`class CustomerAddress`), relevant
columns. -/
structure CustomerAddress where
  address_id : ℕ
  customer_id : ℕ
deriving DecidableEq, Repr

/-- The `order_items` table row (`class OrderItem`), relevant columns. -/
structure OrderItem where
  order_id : ℕ
  product_id : ℕ
  quantity : ℤ
  unit_price : ℚ
  subtotal : ℚ
  requires_prescription : Bool
  prescription_verified : Bool
deriving DecidableEq, Repr

/-- The `refunds` table row (`class Refund`), relevant columns. -/
structure Refund where
  order_id : ℕ
  amount : ℚ
  cancellation_fee : ℚ
  refund_policy : RefundPolicy
  reason : String
  status : RefundStatus
  created_at : ℤ
deriving DecidableEq, Repr

/-- The `payments` table row (`class Payment`), relevant columns; the payment
route stores the plain strings `"completed"` / `"failed"` in `status`. -/
structure Payment where
  order_id : ℕ
  payment_gateway : String
  amount : ℚ
  method : String
  status : String
  paid_at : Option ℤ
deriving DecidableEq, Repr

/-- The database visible to the verified routes, as lists of rows.
`next_order_id` models the autoincrement counter of `orders.order_id`. -/
structure DB where
  products : List Product
  cart_items : List CartItem
  inventories : List PharmacyInventory
  prescriptions : List Prescription
  addresses : List CustomerAddress
  orders : List Order
  order_items : List OrderItem
  refunds : List Refund
  payments : List Payment
  next_order_id : ℕ
deriving DecidableEq, Repr

/-- The `(datetime.now() - order.created_at).total_seconds() / 3600` from
`app/utils/refund_calculator.py`. -/
def ageHours (now : ℤ) (o : Order) : ℚ :=
  ((now - o.created_at : ℤ) : ℚ) / 3600

/-- The `delivery_time = order.ready_at or order.created_at` followed by
`(datetime.now() - delivery_time).days` (flooring division, as Python's
`timedelta.days`). -/
def daysSinceDelivery (now : ℤ) (o : Order) : ℤ :=
  Int.fdiv (now - o.ready_at.getD o.created_at) 86400

/-- The `determine_refund_policy` from `app/utils/refund_calculator.py`. -/
def determine_refund_policy (now : ℤ) (o : Order) : RefundPolicy :=
  if o.status = "cancelled" then
    if ageHours now o < 1 then RefundPolicy.full
    else if ageHours now o < 24 then RefundPolicy.partialRefund
    else RefundPolicy.no_refund
  else if o.status = "returned" then
    if daysSinceDelivery now o ≤ 7 then RefundPolicy.partialRefund
    else RefundPolicy.no_refund
  else RefundPolicy.no_refund

/-- The `order.cancellation_fee_percentage or 10.00`: Python `or` falls back to
the default both when the column is NULL and when it is 0 (falsy). -/
def cancellationFeeOrDefault (o : Order) : ℚ :=
  match o.cancellation_fee_percentage with
  | none => 10
  | some f => if f = 0 then 10 else f

/-- The `calculate_refund_amount` from `app/utils/refund_calculator.py`. -/
def calculate_refund_amount (o : Order) (refund_policy : RefundPolicy) : ℚ :=
  match refund_policy with
  | RefundPolicy.full => o.final_amount
  | RefundPolicy.partialRefund =>
      o.final_amount - (cancellationFeeOrDefault o / 100) * o.final_amount
  | RefundPolicy.no_refund => 0

/-- The `is_refund_eligible` from `app/utils/refund_calculator.py`. -/
def is_refund_eligible (now : ℤ) (o : Order) : Bool :=
  if o.status ≠ "cancelled" ∧ o.status ≠ "returned" then false
  else if o.status = "cancelled" then ageHours now o ≤ 24
  else if o.status = "returned" then daysSinceDelivery now o ≤ 7
  else false

/-- A concrete order used to instantiate theorems on sample inputs. -/
def sampleOrder : Order :=
  { order_id := 1, order_number := "ORD1", customer_id := 1,
    total_amount := 100, shipping_charges := 50, tax_amount := 18,
    discount_amount := 0, final_amount := 168, order_type := "delivery",
    shipping_address_id := 1, payment_method := "card", status := "cancelled",
    cancellation_fee_percentage := some 10, ready_at := none,
    cancelled_at := none, cancellation_reason := none,
    created_at := 0, updated_at := 0 }

/-- Cancelled order whose fee column holds the (falsy) value 0. -/
def orderFeeZero : Order :=
  { sampleOrder with final_amount := 100, cancellation_fee_percentage := some 0 }

/-- C1: for a "cancelled" order, `determine_refund_policy` returns `full`
below 1 hour of age, `partialRefund` between 1 (inclusive) and 24 hours,
and `no_refund` from 24 hours on; for a "returned" order it returns
`partialRefund` when at most 7 whole days passed since `ready_at`
(falling back to `created_at`), else `no_refund`; for any other status it
returns `no_refund`. -/
theorem determine_refund_policy_cases (now : ℤ) (o : Order) :
    (o.status = "cancelled" →
      (ageHours now o < 1 → determine_refund_policy now o = RefundPolicy.full) ∧
      (1 ≤ ageHours now o → ageHours now o < 24 →
        determine_refund_policy now o = RefundPolicy.partialRefund) ∧
      (24 ≤ ageHours now o →
        determine_refund_policy now o = RefundPolicy.no_refund)) ∧
    (o.status = "returned" →
      (daysSinceDelivery now o ≤ 7 →
        determine_refund_policy now o = RefundPolicy.partialRefund) ∧
      (7 < daysSinceDelivery now o →
        determine_refund_policy now o = RefundPolicy.no_refund)) ∧
    (o.status ≠ "cancelled" → o.status ≠ "returned" →
      determine_refund_policy now o = RefundPolicy.no_refund) := by
  unfold determine_refund_policy
  refine ⟨fun hc => ?_, fun hr => ?_, fun hc hr => ?_⟩
  · rw [if_pos hc]
    refine ⟨fun h1 => if_pos h1, fun h1 h24 => ?_, fun h24 => ?_⟩
    · rw [if_neg (not_lt.mpr h1), if_pos h24]
    · rw [if_neg (not_lt.mpr (le_trans (by norm_num) h24)),
        if_neg (not_lt.mpr h24)]
  · have hc : o.status ≠ "cancelled" := by rw [hr]; decide
    rw [if_neg hc, if_pos hr]
    exact ⟨fun h => if_pos h, fun h => if_neg (not_le.mpr h)⟩
  · rw [if_neg hc, if_neg hr]

/-- Witness for C1: instantiates the case analysis on a cancelled order of
age 1/2 hour. -/
theorem determine_refund_policy_cases_witness :
    determine_refund_policy 1800 sampleOrder = RefundPolicy.full :=
  ((determine_refund_policy_cases 1800 sampleOrder).1 rfl).1
    (by norm_num [ageHours, sampleOrder])

/-- C6 counterexample: on an order whose `cancellation_fee_percentage`
column is set to 0, the partial refund is computed with the default fee of
10 percent (Python's `or` treats 0 as unset), not with the stored fee of 0
as the claim would require. -/
theorem calculate_refund_amount_zero_fee_counterexample :
    orderFeeZero.cancellation_fee_percentage = some 0 ∧
    orderFeeZero.final_amount = 100 ∧
    calculate_refund_amount orderFeeZero RefundPolicy.partialRefund = 90 ∧
    calculate_refund_amount orderFeeZero RefundPolicy.partialRefund ≠
      orderFeeZero.final_amount -
        ((0 : ℚ) / 100) * orderFeeZero.final_amount := by
  refine ⟨rfl, rfl, ?_, ?_⟩ <;>
    norm_num [calculate_refund_amount, cancellationFeeOrDefault, orderFeeZero,
      sampleOrder]

/-- C6 amended: `calculate_refund_amount` returns `final_amount` under the
full policy, `final_amount - (fee/100) * final_amount` under the partial
policy where the fee defaults to 10 both when the column is unset and when
it is set to 0, and 0 under the no_refund policy. -/
theorem calculate_refund_amount_spec (o : Order) :
    calculate_refund_amount o RefundPolicy.full = o.final_amount ∧
    calculate_refund_amount o RefundPolicy.partialRefund =
      o.final_amount - (cancellationFeeOrDefault o / 100) * o.final_amount ∧
    calculate_refund_amount o RefundPolicy.no_refund = 0 ∧
    (o.cancellation_fee_percentage = none → cancellationFeeOrDefault o = 10) ∧
    (o.cancellation_fee_percentage = some 0 → cancellationFeeOrDefault o = 10) ∧
    (∀ f, o.cancellation_fee_percentage = some f → f ≠ 0 →
      cancellationFeeOrDefault o = f) := by
  refine ⟨rfl, rfl, rfl, fun h => ?_, fun h => ?_, fun f h hf => ?_⟩
  · simp [cancellationFeeOrDefault, h]
  · simp [cancellationFeeOrDefault, h]
  · simp [cancellationFeeOrDefault, h, hf]

/-- Witness for C6 (amended): evaluates the characterisation on a concrete
order with fee column 0. -/
theorem calculate_refund_amount_spec_witness :
    calculate_refund_amount orderFeeZero RefundPolicy.partialRefund =
      orderFeeZero.final_amount -
        (cancellationFeeOrDefault orderFeeZero / 100) *
          orderFeeZero.final_amount :=
  (calculate_refund_amount_spec orderFeeZero).2.1

/-- Cancelled order evaluated exactly 24 hours after creation. -/
def orderAt24h : Order := { sampleOrder with created_at := 0 }

/-- C9 counterexample: a cancelled order of age exactly 24 hours is refund
eligible (`age ≤ 24`), yet the refund policy at the same instant is
`no_refund` (`¬ age < 24`), so the refund amount is 0 although the final
amount is positive and the fee is below 100. -/
theorem refund_eligible_policy_counterexample :
    is_refund_eligible 86400 orderAt24h = true ∧
    determine_refund_policy 86400 orderAt24h = RefundPolicy.no_refund ∧
    calculate_refund_amount orderAt24h
      (determine_refund_policy 86400 orderAt24h) = 0 ∧
    0 < orderAt24h.final_amount ∧
    cancellationFeeOrDefault orderAt24h < 100 := by
  refine ⟨?_, ?_, ?_, ?_, ?_⟩ <;>
    norm_num [is_refund_eligible, determine_refund_policy,
      calculate_refund_amount, cancellationFeeOrDefault, ageHours, orderAt24h,
      sampleOrder]

/-- C9 amended: whenever `is_refund_eligible` holds and the order is not a
cancelled order of age exactly 24 hours, `determine_refund_policy` at the
same instant returns `full` or `partialRefund`; moreover the computed
refund amount is then positive as soon as `final_amount` is positive and
the (defaulted) cancellation fee is below 100. -/
theorem refund_eligible_policy_amended (now : ℤ) (o : Order)
    (he : is_refund_eligible now o = true)
    (h24 : ¬(o.status = "cancelled" ∧ ageHours now o = 24)) :
    (determine_refund_policy now o = RefundPolicy.full ∨
      determine_refund_policy now o = RefundPolicy.partialRefund) ∧
    (0 < o.final_amount → cancellationFeeOrDefault o < 100 →
      0 < calculate_refund_amount o (determine_refund_policy now o)) := by
  have hpos : ∀ hpol : determine_refund_policy now o = RefundPolicy.full ∨
      determine_refund_policy now o = RefundPolicy.partialRefund,
      0 < o.final_amount → cancellationFeeOrDefault o < 100 →
      0 < calculate_refund_amount o (determine_refund_policy now o) := by
    rintro (hpol | hpol) hfin hfee <;> rw [hpol]
    · exact hfin
    · unfold calculate_refund_amount
      have h1 : cancellationFeeOrDefault o / 100 < 1 := by
        rw [div_lt_one (by norm_num)]; exact hfee
      nlinarith
  by_cases hc : o.status = "cancelled"
  · have hage : ageHours now o ≤ 24 := by
      unfold is_refund_eligible at he
      rw [if_neg (by simp [hc]), if_pos hc] at he
      exact of_decide_eq_true he
    have hlt : ageHours now o < 24 := lt_of_le_of_ne hage fun h => h24 ⟨hc, h⟩
    have hpol : determine_refund_policy now o = RefundPolicy.full ∨
        determine_refund_policy now o = RefundPolicy.partialRefund := by
      unfold determine_refund_policy
      rw [if_pos hc]
      by_cases h1 : ageHours now o < 1
      · exact Or.inl (if_pos h1)
      · rw [if_neg h1]; exact Or.inr (if_pos hlt)
    exact ⟨hpol, hpos hpol⟩
  · by_cases hr : o.status = "returned"
    · have hdays : daysSinceDelivery now o ≤ 7 := by
        unfold is_refund_eligible at he
        rw [if_neg (by simp [hr]), if_neg hc, if_pos hr] at he
        exact of_decide_eq_true he
      have hpol : determine_refund_policy now o = RefundPolicy.full ∨
          determine_refund_policy now o = RefundPolicy.partialRefund := by
        unfold determine_refund_policy
        rw [if_neg hc, if_pos hr]
        exact Or.inr (if_pos hdays)
      exact ⟨hpol, hpos hpol⟩
    · exfalso
      unfold is_refund_eligible at he
      rw [if_pos ⟨hc, hr⟩] at he
      exact Bool.false_ne_true he

/-- Witness for C9 (amended): a cancelled order of age 1/2 hour is eligible
and indeed gets the `full` policy. -/
theorem refund_eligible_policy_amended_witness :
    (determine_refund_policy 1800 sampleOrder = RefundPolicy.full ∨
      determine_refund_policy 1800 sampleOrder = RefundPolicy.partialRefund) ∧
    (0 < sampleOrder.final_amount →
      cancellationFeeOrDefault sampleOrder < 100 →
      0 < calculate_refund_amount sampleOrder
        (determine_refund_policy 1800 sampleOrder)) :=
  refund_eligible_policy_amended 1800 sampleOrder
    (by norm_num [is_refund_eligible, sampleOrder, ageHours])
    (by norm_num [ageHours, sampleOrder])

/-- The `HTTPException`s raised by the verified routes, one constructor per
raise site, carrying the data interpolated into the detail message. -/
inductive Err where
  | invalidAddress
  | cartEmpty
  | prescriptionRequired (names : List String)
  | productNotFound (cart_item_id : ℕ)
  | outOfStock (name : String)
  | insufficientStock (available : ℤ) (name : String) (requested : ℤ)
  | orderNotFound
  | cannotCancel (status : String)
  | notEligible
  | refundExists
  | cannotPayCancelled
  | paymentCompleted
deriving DecidableEq, Repr

/-- HTTP status code of each raise site: the order-lookup failure is 404,
every other verified raise is 400. -/
def Err.statusCode : Err → ℕ
  | Err.orderNotFound => 404
  | _ => 400

/-- The `detail` string of each `HTTPException`. -/
def Err.detail : Err → String
  | Err.invalidAddress => "Invalid shipping address"
  | Err.cartEmpty => "Cart is empty"
  | Err.prescriptionRequired names =>
      "Prescription required for: " ++ String.intercalate ", " names ++
        ". Please upload and get approval first."
  | Err.productNotFound cartItemId =>
      "Product not found for cart item " ++ toString cartItemId
  | Err.outOfStock name => "Product " ++ name ++ " is out of stock"
  | Err.insufficientStock available name requested =>
      "Only " ++ toString available ++ " items available for " ++ name ++
        ", but " ++ toString requested ++ " requested"
  | Err.orderNotFound => "Order not found"
  | Err.cannotCancel st => "Cannot cancel order with status: " ++ st
  | Err.notEligible => "Order is not eligible for refund based on our policy"
  | Err.refundExists => "Refund already requested for this order"
  | Err.cannotPayCancelled => "Cannot pay for cancelled order"
  | Err.paymentCompleted => "Payment already completed for this order"

/-- The `db.query(Product).filter(Product.product_id == pid).first()`. -/
def findProduct (db : DB) (pid : ℕ) : Option Product :=
  db.products.find? (fun p => p.product_id == pid)

/-- The `db.query(CartItem).filter(CartItem.customer_id == cid).all()`. -/
def customerCart (db : DB) (cid : ℕ) : List CartItem :=
  db.cart_items.filter (fun c => c.customer_id == cid)

/-- The `db.query(Prescription).filter(customer_id == cid, status ==
"approved").first()` turned into a boolean. -/
def hasApprovedPrescription (db : DB) (cid : ℕ) : Bool :=
  (db.prescriptions.find?
    (fun pr => pr.customer_id == cid && pr.status == "approved")).isSome

/-- The `db.query(PharmacyInventory).filter(product_id == pid, is_available ==
True).first()`. -/
def findAvailableInventory (invs : List PharmacyInventory) (pid : ℕ) :
    Option PharmacyInventory :=
  invs.find? (fun inv => inv.product_id == pid && inv.is_available)

/-- The prescription-gate loop of `create_order`
(`app/routes/customer_orders.py`): collects the names of cart products that
require a prescription while the customer has no approved prescription. -/
def prescriptionRequiredItems (db : DB) (cid : ℕ) :
    List CartItem → List String
  | [] => []
  | ci :: rest =>
    let tail := prescriptionRequiredItems db cid rest
    match findProduct db ci.product_id with
    | some p =>
        if p.requires_prescription then
          if hasApprovedPrescription db cid then tail else p.name :: tail
        else tail
    | none => tail

/-- The per-item dictionary `order_items_data` built by `create_order`. -/
structure OrderItemData where
  product_id : ℕ
  quantity : ℤ
  unit_price : ℚ
  subtotal : ℚ
  requires_prescription : Bool
deriving DecidableEq, Repr

/-- The inventory-checking / total-accumulating loop of `create_order`:
per cart item it resolves the product, the first available inventory row,
checks the stock, and accumulates the running total and the
`order_items_data` entries. -/
def buildOrderItems (db : DB) : List CartItem → Except Err (ℚ × List OrderItemData)
  | [] => Except.ok (0, [])
  | ci :: rest =>
    match findProduct db ci.product_id with
    | none => Except.error (Err.productNotFound ci.cart_item_id)
    | some p =>
      match findAvailableInventory db.inventories ci.product_id with
      | none => Except.error (Err.outOfStock p.name)
      | some inv =>
        if inv.quantity_in_stock < ci.quantity then
          Except.error (Err.insufficientStock inv.quantity_in_stock p.name ci.quantity)
        else
          match buildOrderItems db rest with
          | Except.error e => Except.error e
          | Except.ok (t, ds) =>
            Except.ok (p.price * (ci.quantity : ℚ) + t,
              { product_id := p.product_id, quantity := ci.quantity,
                unit_price := p.price,
                subtotal := p.price * (ci.quantity : ℚ),
                requires_prescription := p.requires_prescription } :: ds)

/-- The inventory write of `create_order`: fetch the first available row for
the product, subtract the ordered quantity, and mark the row unavailable when
the stock drops to 0 or below. -/
def decrementFirstAvailable : List PharmacyInventory → ℕ → ℤ → List PharmacyInventory
  | [], _, _ => []
  | inv :: rest, pid, qty =>
    if inv.product_id == pid && inv.is_available then
      { inv with
          quantity_in_stock := inv.quantity_in_stock - qty,
          is_available :=
            if inv.quantity_in_stock - qty ≤ 0 then false
            else inv.is_available } :: rest
    else inv :: decrementFirstAvailable rest pid qty

/-- The whole inventory-update loop of `create_order` over
`order_items_data`. -/
def applyInventoryUpdates (invs : List PharmacyInventory)
    (ds : List OrderItemData) : List PharmacyInventory :=
  ds.foldl (fun acc d => decrementFirstAvailable acc d.product_id d.quantity) invs

/-- The `OrderCreate` request schema (`app/schemas/orders.py`):
`shipping_address_id` is a required `int`, so Python's
`if order_data.shipping_address_id:` skips validation exactly when it is 0. -/
structure OrderCreate where
  shipping_address_id : ℕ
  order_type : String
  payment_method : String
deriving DecidableEq, Repr

/-- The shipping-address validation step of `create_order`. -/
def shippingAddressOk (db : DB) (cid : ℕ) (od : OrderCreate) : Bool :=
  if od.shipping_address_id ≠ 0 then
    (db.addresses.find? (fun a =>
      a.address_id == od.shipping_address_id && a.customer_id == cid)).isSome
  else true

/-- The `Order` record inserted by `create_order`: totals as computed by the
route (`shipping_charges = 50.0`, `tax_amount = total * 0.18`,
`final_amount = total + shipping + tax`, `discount_amount = 0.0`), status
`"pending"`, and the column default 10.00 for the cancellation fee. -/
def mkNewOrder (db : DB) (cid : ℕ) (od : OrderCreate) (now : ℤ)
    (total_amount : ℚ) : Order :=
  { order_id := db.next_order_id,
    order_number := "ORD" ++ toString now ++ toString cid,
    customer_id := cid,
    total_amount := total_amount,
    shipping_charges := 50,
    tax_amount := total_amount * 0.18,
    discount_amount := 0,
    final_amount := total_amount + 50 + total_amount * 0.18,
    order_type := od.order_type,
    shipping_address_id := od.shipping_address_id,
    payment_method := od.payment_method,
    status := "pending",
    cancellation_fee_percentage := some 10,
    ready_at := none, cancelled_at := none,
    cancellation_reason := none,
    created_at := now, updated_at := now }

/-- The `OrderItem` row inserted per `order_items_data` entry:
`prescription_verified` is the negation of `requires_prescription`
(auto-verify when no prescription is needed). -/
def mkOrderItemRow (oid : ℕ) (d : OrderItemData) : OrderItem :=
  { order_id := oid, product_id := d.product_id,
    quantity := d.quantity, unit_price := d.unit_price,
    subtotal := d.subtotal,
    requires_prescription := d.requires_prescription,
    prescription_verified := !d.requires_prescription }

/-- The committed state of a successful `create_order`: order and order
items appended, inventory decremented, the customer's cart rows deleted. -/
def commitCreateOrder (db : DB) (cid : ℕ) (o : Order)
    (items : List OrderItemData) : DB :=
  { db with
      orders := db.orders ++ [o],
      order_items := db.order_items ++ items.map (mkOrderItemRow o.order_id),
      inventories := applyInventoryUpdates db.inventories items,
      cart_items := db.cart_items.filter (fun c => c.customer_id != cid),
      next_order_id := db.next_order_id + 1 }

/-- The `create_order` from `app/routes/customer_orders.py`; the fresh
`order_id` is the autoincrement counter. -/
def create_order (db : DB) (cid : ℕ) (od : OrderCreate) (now : ℤ) :
    Except Err (DB × Order) :=
  if ¬shippingAddressOk db cid od then Except.error Err.invalidAddress
  else
    let cart := customerCart db cid
    if cart.isEmpty then Except.error Err.cartEmpty
    else
      let needy := prescriptionRequiredItems db cid cart
      if ¬needy.isEmpty then Except.error (Err.prescriptionRequired needy)
      else
        match buildOrderItems db cart with
        | Except.error e => Except.error e
        | Except.ok (total_amount, items) =>
          let o : Order := mkNewOrder db cid od now total_amount
          Except.ok (commitCreateOrder db cid o items, o)

/-- The endpoint semantics of `create_order` including transaction handling:
on success the new state is committed, on `HTTPException` the session is
rolled back and the pre-state survives. -/
def runCreateOrder (db : DB) (cid : ℕ) (od : OrderCreate) (now : ℤ) :
    DB × Option Order :=
  match create_order db cid od now with
  | Except.ok (db', o) => (db', some o)
  | Except.error _ => (db, none)

/-- The `db.query(Order).filter(order_id == oid, customer_id == cid).first()`. -/
def findOrder (db : DB) (cid oid : ℕ) : Option Order :=
  db.orders.find? (fun o => o.order_id == oid && o.customer_id == cid)

/-- ORM mutation of a fetched order: the first row matching the lookup is
replaced by the updated record. -/
def replaceFirstOrder : List Order → ℕ → ℕ → Order → List Order
  | [], _, _, _ => []
  | o :: rest, oid, cid, o' =>
    if o.order_id == oid && o.customer_id == cid then o' :: rest
    else o :: replaceFirstOrder rest oid cid o'

/-- The inventory restore of `cancel_my_order`: fetch the first row for the
product regardless of availability, add the quantity back, and set
`is_available` (the code sets it to `True` when it was `False`, so the row
ends available either way). -/
def restoreFirstInventory : List PharmacyInventory → ℕ → ℤ → List PharmacyInventory
  | [], _, _ => []
  | inv :: rest, pid, qty =>
    if inv.product_id == pid then
      { inv with
          quantity_in_stock := inv.quantity_in_stock + qty,
          is_available := true } :: rest
    else inv :: restoreFirstInventory rest pid qty

/-- The `cancel_my_order` from `app/routes/customer_orders.py`. -/
def cancel_my_order (db : DB) (cid oid : ℕ) (reason : String) (now : ℤ) :
    Except Err DB :=
  match findOrder db cid oid with
  | none => Except.error Err.orderNotFound
  | some o =>
    if o.status == "pending" || o.status == "confirmed" then
      let o' : Order :=
        { o with
            status := "cancelled",
            cancellation_reason := some reason,
            cancelled_at := some now, updated_at := now }
      let items := db.order_items.filter (fun it => it.order_id == oid)
      Except.ok { db with
        orders := replaceFirstOrder db.orders oid cid o',
        inventories := items.foldl
          (fun acc it => restoreFirstInventory acc it.product_id it.quantity)
          db.inventories }
    else Except.error (Err.cannotCancel o.status)

/-- The `db.query(Refund).filter(Refund.order_id == oid).first()` turned into a
boolean. -/
def refundExistsFor (db : DB) (oid : ℕ) : Bool :=
  (db.refunds.find? (fun r => r.order_id == oid)).isSome

/-- The `request_refund` from `app/routes/refund.py`. -/
def request_refund (db : DB) (cid oid : ℕ) (reason : String) (now : ℤ) :
    Except Err (DB × Refund) :=
  match findOrder db cid oid with
  | none => Except.error Err.orderNotFound
  | some o =>
    if ¬is_refund_eligible now o then Except.error Err.notEligible
    else if refundExistsFor db oid then Except.error Err.refundExists
    else
      let policy := determine_refund_policy now o
      let amount := calculate_refund_amount o policy
      let r : Refund :=
        { order_id := oid, amount := amount,
          cancellation_fee := cancellationFeeOrDefault o,
          refund_policy := policy, reason := reason,
          status := RefundStatus.pending, created_at := now }
      Except.ok ({ db with refunds := db.refunds ++ [r] }, r)

/-- The `PaymentCreate` request schema (`app/schemas/payments.py`),
relevant fields. -/
structure PaymentCreate where
  payment_gateway : String
  method : String
deriving DecidableEq, Repr

/-- The `db.query(Payment).filter(order_id == oid, status ==
"completed").first()` turned into a boolean. -/
def completedPaymentExists (db : DB) (oid : ℕ) : Bool :=
  (db.payments.find?
    (fun p => p.order_id == oid && p.status == "completed")).isSome

/-- The `process_payment` from `app/routes/customer_payments.py`; the simulated
gateway outcome (`random.random() < 0.8`) is an explicit boolean input. -/
def process_payment (db : DB) (cid oid : ℕ) (pd : PaymentCreate)
    (payment_successful : Bool) (now : ℤ) : Except Err (DB × Payment) :=
  match findOrder db cid oid with
  | none => Except.error Err.orderNotFound
  | some o =>
    if o.status == "cancelled" then Except.error Err.cannotPayCancelled
    else if completedPaymentExists db oid then Except.error Err.paymentCompleted
    else
      let p : Payment :=
        { order_id := oid,
          payment_gateway := pd.payment_gateway,
          amount := o.final_amount, method := pd.method,
          status := if payment_successful then "completed" else "failed",
          paid_at := if payment_successful then some now else none }
      let orders' := if payment_successful then
          replaceFirstOrder db.orders oid cid
            { o with status := "confirmed", updated_at := now }
        else db.orders
      Except.ok
        ({ db with
            payments := db.payments ++ [p],
            orders := orders' }, p)

/-- The claim's formula for the order subtotal: the sum over the customer's
cart items of the product's price times the cart quantity (a missing
product contributes 0; on a successful order every product exists). -/
def specCartTotal (db : DB) (items : List CartItem) : ℚ :=
  (items.map (fun ci =>
    match findProduct db ci.product_id with
    | some p => p.price * (ci.quantity : ℚ)
    | none => 0)).sum

theorem findProduct_some_pid {db : DB} {pid : ℕ} {p : Product}
    (h : findProduct db pid = some p) : p.product_id = pid := by
  have := List.find?_some h
  simpa using this

theorem findAvailableInventory_some {invs : List PharmacyInventory} {pid : ℕ}
    {inv : PharmacyInventory}
    (h : findAvailableInventory invs pid = some inv) :
    inv.product_id = pid ∧ inv.is_available = true := by
  have := List.find?_some h
  simp only [Bool.and_eq_true, beq_iff_eq] at this
  exact this

/-- Inversion of one step of the checking loop of `create_order`. -/
theorem buildOrderItems_cons_ok (db : DB) (ci : CartItem)
    (rest : List CartItem) (t : ℚ) (ds : List OrderItemData)
    (h : buildOrderItems db (ci :: rest) = Except.ok (t, ds)) :
    ∃ p inv t' ds',
      findProduct db ci.product_id = some p ∧
      findAvailableInventory db.inventories ci.product_id = some inv ∧
      ¬(inv.quantity_in_stock < ci.quantity) ∧
      buildOrderItems db rest = Except.ok (t', ds') ∧
      t = p.price * (ci.quantity : ℚ) + t' ∧
      ds = { product_id := p.product_id, quantity := ci.quantity,
             unit_price := p.price,
             subtotal := p.price * (ci.quantity : ℚ),
             requires_prescription := p.requires_prescription } :: ds' := by
  cases hp : findProduct db ci.product_id with
  | none => simp [buildOrderItems, hp] at h
  | some p =>
    cases hi : findAvailableInventory db.inventories ci.product_id with
    | none => simp [buildOrderItems, hp, hi] at h
    | some inv =>
      by_cases hq : inv.quantity_in_stock < ci.quantity
      · simp [buildOrderItems, hp, hi, hq] at h
      · cases hb : buildOrderItems db rest with
        | error e => simp [buildOrderItems, hp, hi, hq, hb] at h
        | ok td =>
          obtain ⟨t', ds'⟩ := td
          simp only [buildOrderItems, hp, hi, if_neg hq, hb,
            Except.ok.injEq, Prod.mk.injEq] at h
          exact ⟨p, inv, t', ds', rfl, rfl, hq, rfl, h.1.symm, h.2.symm⟩

/-- On success the accumulated total is the claim's sum formula. -/
theorem buildOrderItems_total (db : DB) :
    ∀ (items : List CartItem) (t : ℚ) (ds : List OrderItemData),
      buildOrderItems db items = Except.ok (t, ds) →
      t = specCartTotal db items := by
  intro items
  induction items with
  | nil =>
    intro t ds h
    simp only [buildOrderItems, Except.ok.injEq, Prod.mk.injEq] at h
    simp [specCartTotal, ← h.1]
  | cons ci rest ih =>
    intro t ds h
    obtain ⟨p, inv, t', ds', hp, hi, hq, hb, ht, hds⟩ :=
      buildOrderItems_cons_ok db ci rest t ds h
    subst ht
    simp [specCartTotal, hp, ih t' ds' hb]

/-- On success every cart item has an existing product and a first available
inventory row with sufficient stock. -/
theorem buildOrderItems_checks (db : DB) :
    ∀ (items : List CartItem) (t : ℚ) (ds : List OrderItemData),
      buildOrderItems db items = Except.ok (t, ds) →
      ∀ ci ∈ items, ∃ p, findProduct db ci.product_id = some p ∧
        ∃ inv, findAvailableInventory db.inventories ci.product_id = some inv ∧
          ci.quantity ≤ inv.quantity_in_stock := by
  intro items
  induction items with
  | nil => intro t ds _ ci hci; cases hci
  | cons cj rest ih =>
    intro t ds h ci hci
    obtain ⟨p, inv, t', ds', hp, hi, hq, hb, ht, hds⟩ :=
      buildOrderItems_cons_ok db cj rest t ds h
    rcases List.mem_cons.mp hci with heq | hmem
    · subst heq
      exact ⟨p, hp, inv, hi, not_lt.mp hq⟩
    · exact ih t' ds' hb ci hmem

/-- On success the produced item data mirrors the cart items' products and
quantities positionally. -/
theorem buildOrderItems_map (db : DB) :
    ∀ (items : List CartItem) (t : ℚ) (ds : List OrderItemData),
      buildOrderItems db items = Except.ok (t, ds) →
      ds.map (fun d => d.product_id) = items.map (fun ci => ci.product_id) ∧
      ds.map (fun d => d.quantity) = items.map (fun ci => ci.quantity) := by
  intro items
  induction items with
  | nil =>
    intro t ds h
    simp only [buildOrderItems, Except.ok.injEq, Prod.mk.injEq] at h
    simp [← h.2]
  | cons ci rest ih =>
    intro t ds h
    obtain ⟨p, inv, t', ds', hp, hi, hq, hb, ht, hds⟩ :=
      buildOrderItems_cons_ok db ci rest t ds h
    subst hds
    obtain ⟨h1, h2⟩ := ih t' ds' hb
    simp [h1, h2, findProduct_some_pid hp]

/-- On success each produced item data entry comes from an existing product
and copies its `requires_prescription` flag. -/
theorem buildOrderItems_items (db : DB) :
    ∀ (items : List CartItem) (t : ℚ) (ds : List OrderItemData),
      buildOrderItems db items = Except.ok (t, ds) →
      ∀ d ∈ ds, ∃ p, findProduct db d.product_id = some p ∧
        d.requires_prescription = p.requires_prescription := by
  intro items
  induction items with
  | nil =>
    intro t ds h d hd
    simp only [buildOrderItems, Except.ok.injEq, Prod.mk.injEq] at h
    rw [← h.2] at hd
    cases hd
  | cons ci rest ih =>
    intro t ds h d hd
    obtain ⟨p, inv, t', ds', hp, hi, hq, hb, ht, hds⟩ :=
      buildOrderItems_cons_ok db ci rest t ds h
    subst hds
    rcases List.mem_cons.mp hd with heq | hmem
    · subst heq
      refine ⟨p, ?_, rfl⟩
      simpa [findProduct_some_pid hp] using hp
    · exact ih t' ds' hb d hmem

/-- On success every cart item has a matching produced item data entry. -/
theorem buildOrderItems_matches (db : DB) :
    ∀ (items : List CartItem) (t : ℚ) (ds : List OrderItemData),
      buildOrderItems db items = Except.ok (t, ds) →
      ∀ ci ∈ items, ∃ d ∈ ds,
        d.product_id = ci.product_id ∧ d.quantity = ci.quantity := by
  intro items
  induction items with
  | nil => intro t ds _ ci hci; cases hci
  | cons cj rest ih =>
    intro t ds h ci hci
    obtain ⟨p, inv, t', ds', hp, hi, hq, hb, ht, hds⟩ :=
      buildOrderItems_cons_ok db cj rest t ds h
    subst hds
    rcases List.mem_cons.mp hci with heq | hmem
    · subst heq
      exact ⟨_, List.mem_cons_self _ _, findProduct_some_pid hp, rfl⟩
    · obtain ⟨d, hd, hd1, hd2⟩ := ih t' ds' hb ci hmem
      exact ⟨d, List.mem_cons_of_mem _ hd, hd1, hd2⟩

/-- The checking loop only raises the three stock-related 400 errors. -/
theorem buildOrderItems_error_shape (db : DB) :
    ∀ (items : List CartItem) (e : Err),
      buildOrderItems db items = Except.error e →
      Err.statusCode e = 400 ∧
      (∀ names, e ≠ Err.prescriptionRequired names) ∧
      e ≠ Err.orderNotFound := by
  intro items
  induction items with
  | nil => intro e h; simp [buildOrderItems] at h
  | cons ci rest ih =>
    intro e h
    cases hp : findProduct db ci.product_id with
    | none =>
      simp only [buildOrderItems, hp, Except.error.injEq] at h
      subst h
      exact ⟨rfl, fun _ => nofun, nofun⟩
    | some p =>
      cases hi : findAvailableInventory db.inventories ci.product_id with
      | none =>
        simp only [buildOrderItems, hp, hi, Except.error.injEq] at h
        subst h
        exact ⟨rfl, fun _ => nofun, nofun⟩
      | some inv =>
        by_cases hq : inv.quantity_in_stock < ci.quantity
        · simp only [buildOrderItems, hp, hi, if_pos hq,
            Except.error.injEq] at h
          subst h
          exact ⟨rfl, fun _ => nofun, nofun⟩
        · cases hb : buildOrderItems db rest with
          | error e' =>
            simp only [buildOrderItems, hp, hi, if_neg hq, hb,
              Except.error.injEq] at h
            subst h
            exact ih e' hb
          | ok td =>
            obtain ⟨t', ds'⟩ := td
            simp [buildOrderItems, hp, hi, if_neg hq, hb] at h

/-- With an approved prescription on file the gate collects nothing. -/
theorem prescriptionRequiredItems_of_approved (db : DB) (cid : ℕ)
    (h : hasApprovedPrescription db cid = true) :
    ∀ items, prescriptionRequiredItems db cid items = [] := by
  intro items
  induction items with
  | nil => rfl
  | cons ci rest ih =>
    simp only [prescriptionRequiredItems]
    cases hp : findProduct db ci.product_id with
    | none => simpa using ih
    | some p => simp [h, ih]

/-- Without an approved prescription the gate collects something exactly
when some cart product requires a prescription. -/
theorem prescriptionRequiredItems_ne_nil_iff (db : DB) (cid : ℕ)
    (h : hasApprovedPrescription db cid = false) :
    ∀ items, prescriptionRequiredItems db cid items ≠ [] ↔
      ∃ ci ∈ items, ∃ p, findProduct db ci.product_id = some p ∧
        p.requires_prescription = true := by
  intro items
  induction items with
  | nil => simp [prescriptionRequiredItems]
  | cons ci rest ih =>
    simp only [prescriptionRequiredItems]
    cases hp : findProduct db ci.product_id with
    | none => simp [hp, ih]
    | some p =>
      by_cases hr : p.requires_prescription = true
      · simp only [hp, hr, if_true, h, if_false]
        constructor
        · intro _
          exact ⟨ci, List.mem_cons_self _ _, p, hp, hr⟩
        · intro _
          exact List.cons_ne_nil _ _
      · simp [hp, hr, ih]

/-- Inversion of a successful `create_order` run. -/
theorem create_order_ok_inv {db : DB} {cid : ℕ} {od : OrderCreate} {now : ℤ}
    {db' : DB} {o : Order}
    (h : create_order db cid od now = Except.ok (db', o)) :
    ∃ t items,
      shippingAddressOk db cid od = true ∧
      customerCart db cid ≠ [] ∧
      prescriptionRequiredItems db cid (customerCart db cid) = [] ∧
      buildOrderItems db (customerCart db cid) = Except.ok (t, items) ∧
      o = mkNewOrder db cid od now t ∧
      db' = commitCreateOrder db cid o items := by
  simp only [create_order] at h
  split at h
  next => cases h
  next ha =>
    split at h
    next => cases h
    next hc =>
      split at h
      next => cases h
      next hn =>
        cases hb : buildOrderItems db (customerCart db cid) with
        | error e => rw [hb] at h; cases h
        | ok td =>
          obtain ⟨t, items⟩ := td
          rw [hb] at h
          simp only [Except.ok.injEq, Prod.mk.injEq] at h
          obtain ⟨hdb, ho⟩ := h
          refine ⟨t, items, by simpa using ha, by simpa using hc,
            by simpa using hn, rfl, ho.symm, ?_⟩
          rw [← hdb, ← ho]

/-- Inversion of a failing `create_order` run: every raise is a 400, never
the 404, and the prescription error carries exactly the gate's name list,
which is then nonempty, with the address check already passed. -/
theorem create_order_error_cases {db : DB} {cid : ℕ} {od : OrderCreate}
    {now : ℤ} {e : Err}
    (h : create_order db cid od now = Except.error e) :
    Err.statusCode e = 400 ∧ e ≠ Err.orderNotFound ∧
    (∀ names, e = Err.prescriptionRequired names →
      shippingAddressOk db cid od = true ∧
      names = prescriptionRequiredItems db cid (customerCart db cid) ∧
      names ≠ []) := by
  simp only [create_order] at h
  split at h
  next =>
    cases h
    exact ⟨rfl, nofun, fun names hne => nomatch hne⟩
  next ha =>
    split at h
    next =>
      cases h
      exact ⟨rfl, nofun, fun names hne => nomatch hne⟩
    next hc =>
      split at h
      next hn =>
        cases h
        refine ⟨rfl, nofun, fun names hne => ?_⟩
        cases hne
        refine ⟨by simpa using ha, rfl, ?_⟩
        simpa using hn
      next hn =>
        cases hb : buildOrderItems db (customerCart db cid) with
        | error e' =>
          rw [hb] at h
          cases h
          obtain ⟨h400, hpr, hnf⟩ := buildOrderItems_error_shape db _ _ hb
          exact ⟨h400, hnf, fun names hne => absurd hne (hpr names)⟩
        | ok td =>
          obtain ⟨t, items⟩ := td
          rw [hb] at h
          cases h

/-- When the address check passes, the cart is nonempty and the gate list is
nonempty, `create_order` raises exactly the prescription 400. -/
theorem create_order_gate_eq (db : DB) (cid : ℕ) (od : OrderCreate) (now : ℤ)
    (haddr : shippingAddressOk db cid od = true)
    (hcart : customerCart db cid ≠ [])
    (hneedy : prescriptionRequiredItems db cid (customerCart db cid) ≠ []) :
    create_order db cid od now =
      Except.error (Err.prescriptionRequired
        (prescriptionRequiredItems db cid (customerCart db cid))) := by
  simp only [create_order]
  rw [if_neg (not_not_intro haddr), if_neg (by simpa using hcart),
    if_pos (by simpa using hneedy)]

/-- Concrete rows used to instantiate the order-placement theorems. -/
def sampleProduct : Product :=
  { product_id := 1, name := "Paracetamol", price := 50,
    requires_prescription := false }

def sampleRxProduct : Product :=
  { product_id := 2, name := "Amoxicillin", price := 80,
    requires_prescription := true }

def sampleInventory : PharmacyInventory :=
  { inventory_id := 1, product_id := 1, quantity_in_stock := 10,
    is_available := true }

def sampleCartItem : CartItem :=
  { cart_item_id := 1, customer_id := 7, product_id := 1, quantity := 2 }

def sampleDB : DB :=
  { products := [sampleProduct],
    cart_items := [sampleCartItem],
    inventories := [sampleInventory],
    prescriptions := [],
    addresses := [],
    orders := [], order_items := [], refunds := [], payments := [],
    next_order_id := 1 }

def sampleOrderCreate : OrderCreate :=
  { shipping_address_id := 0, order_type := "delivery",
    payment_method := "card" }

def sampleItemsData : List OrderItemData :=
  [{ product_id := 1, quantity := 2, unit_price := 50, subtotal := 100,
     requires_prescription := false }]

def sampleNewOrder : Order := mkNewOrder sampleDB 7 sampleOrderCreate 0 100

def sampleNewDB : DB :=
  commitCreateOrder sampleDB 7 sampleNewOrder sampleItemsData

/-- Concrete successful `create_order` run on the sample database. -/
theorem sample_create_ok :
    create_order sampleDB 7 sampleOrderCreate 0 =
      Except.ok (sampleNewDB, sampleNewOrder) := by
  norm_num [create_order, shippingAddressOk, sampleOrderCreate, customerCart,
    sampleDB, sampleCartItem, prescriptionRequiredItems, findProduct,
    sampleProduct, hasApprovedPrescription, buildOrderItems,
    findAvailableInventory, sampleInventory, sampleNewDB, sampleNewOrder,
    commitCreateOrder, mkNewOrder, mkOrderItemRow, applyInventoryUpdates,
    decrementFirstAvailable, sampleItemsData]

/-- C2: every successfully placed order stores `total_amount` equal to the
sum over the customer's cart items of product price times cart quantity,
`shipping_charges = 50`, `tax_amount` equal to 18 percent of
`total_amount`, `discount_amount = 0` and `final_amount = total_amount +
shipping_charges + tax_amount`; the order is appended to the orders
table. -/
theorem create_order_amounts {db : DB} {cid : ℕ} {od : OrderCreate}
    {now : ℤ} {db' : DB} {o : Order}
    (h : create_order db cid od now = Except.ok (db', o)) :
    o.total_amount = specCartTotal db (customerCart db cid) ∧
    o.shipping_charges = 50 ∧
    o.tax_amount = (18 / 100) * o.total_amount ∧
    o.discount_amount = 0 ∧
    o.final_amount = o.total_amount + o.shipping_charges + o.tax_amount ∧
    o ∈ db'.orders := by
  obtain ⟨t, items, -, -, -, hb, ho, hdb⟩ := create_order_ok_inv h
  subst ho
  subst hdb
  have ht := buildOrderItems_total db _ t items hb
  refine ⟨ht, rfl, ?_, rfl, ?_, ?_⟩
  · show t * 0.18 = (18 / 100) * t
    norm_num [mul_comm]
  · rfl
  · simp [commitCreateOrder]

/-- Witness for C2: the sample run, with the hypothesis discharged by the
concrete execution. -/
theorem create_order_amounts_witness :
    sampleNewOrder.total_amount =
      specCartTotal sampleDB (customerCart sampleDB 7) ∧
    sampleNewOrder.shipping_charges = 50 ∧
    sampleNewOrder.tax_amount = (18 / 100) * sampleNewOrder.total_amount ∧
    sampleNewOrder.discount_amount = 0 ∧
    sampleNewOrder.final_amount = sampleNewOrder.total_amount +
      sampleNewOrder.shipping_charges + sampleNewOrder.tax_amount ∧
    sampleNewOrder ∈ sampleNewDB.orders :=
  create_order_amounts sample_create_ok

/-- C3: with the shipping-address check passed, `create_order` raises the
prescription 400 (listing the offending product names) exactly when some
cart product requires a prescription and the customer has no approved
prescription on file, regardless of what any prescription covers; the
listed names are exactly those collected by the gate. -/
theorem create_order_prescription_gate (db : DB) (cid : ℕ) (od : OrderCreate)
    (now : ℤ) (haddr : shippingAddressOk db cid od = true) :
    ((∃ names, create_order db cid od now =
        Except.error (Err.prescriptionRequired names)) ↔
      ((∃ ci ∈ customerCart db cid, ∃ p,
          findProduct db ci.product_id = some p ∧
          p.requires_prescription = true) ∧
        hasApprovedPrescription db cid = false)) ∧
    ∀ names, create_order db cid od now =
        Except.error (Err.prescriptionRequired names) →
      names = prescriptionRequiredItems db cid (customerCart db cid) := by
  constructor
  · constructor
    · rintro ⟨names, hres⟩
      obtain ⟨-, -, hpr⟩ := create_order_error_cases hres
      obtain ⟨-, hnames, hne⟩ := hpr names rfl
      subst hnames
      cases hA : hasApprovedPrescription db cid with
      | true =>
        rw [prescriptionRequiredItems_of_approved db cid hA] at hne
        exact absurd rfl hne
      | false =>
        exact ⟨(prescriptionRequiredItems_ne_nil_iff db cid hA _).mp hne, rfl⟩
    · rintro ⟨⟨ci, hci, p, hp, hr⟩, hfalse⟩
      have hne : prescriptionRequiredItems db cid (customerCart db cid) ≠ [] :=
        (prescriptionRequiredItems_ne_nil_iff db cid hfalse _).mpr
          ⟨ci, hci, p, hp, hr⟩
      have hcart : customerCart db cid ≠ [] := by
        intro h0; rw [h0] at hci; cases hci
      exact ⟨_, create_order_gate_eq db cid od now haddr hcart hne⟩
  · intro names hres
    obtain ⟨-, -, hpr⟩ := create_order_error_cases hres
    exact (hpr names rfl).2.1

/-- Sample database whose cart holds a prescription-only product while no
prescription is on file. -/
def sampleRxDB : DB :=
  { sampleDB with
      products := [sampleProduct, sampleRxProduct],
      cart_items :=
        [{ cart_item_id := 2, customer_id := 7, product_id := 2,
           quantity := 1 }],
      inventories := [sampleInventory,
        { inventory_id := 2, product_id := 2, quantity_in_stock := 5,
          is_available := true }] }

/-- Witness for C3: instantiates the gate characterisation on the sample
database with an unprescribed antibiotic in the cart. -/
theorem create_order_prescription_gate_witness :
    ((∃ names, create_order sampleRxDB 7 sampleOrderCreate 0 =
        Except.error (Err.prescriptionRequired names)) ↔
      ((∃ ci ∈ customerCart sampleRxDB 7, ∃ p,
          findProduct sampleRxDB ci.product_id = some p ∧
          p.requires_prescription = true) ∧
        hasApprovedPrescription sampleRxDB 7 = false)) ∧
    ∀ names, create_order sampleRxDB 7 sampleOrderCreate 0 =
        Except.error (Err.prescriptionRequired names) →
      names = prescriptionRequiredItems sampleRxDB 7
        (customerCart sampleRxDB 7) :=
  create_order_prescription_gate sampleRxDB 7 sampleOrderCreate 0 (by decide)

/-- The stock precondition of C4 for one cart item: either no available
inventory row exists for its product, or the first available row's stock is
below the requested quantity. -/
def inventoryShortage (db : DB) (ci : CartItem) : Prop :=
  match findAvailableInventory db.inventories ci.product_id with
  | none => True
  | some inv => inv.quantity_in_stock < ci.quantity

/-- C4: `create_order` fails with a 400 when the cart is empty, when some
cart product has no available inventory row, or when the first available
row's stock is below the requested quantity; on failure the transaction is
rolled back, so the database (orders, order items, inventory, cart) is
untouched. -/
theorem create_order_failure_rollback (db : DB) (cid : ℕ) (od : OrderCreate)
    (now : ℤ)
    (h : customerCart db cid = [] ∨
      ∃ ci ∈ customerCart db cid, inventoryShortage db ci) :
    ∃ e, create_order db cid od now = Except.error e ∧
      Err.statusCode e = 400 ∧
      runCreateOrder db cid od now = (db, none) := by
  have herr : ∀ db' o, create_order db cid od now ≠ Except.ok (db', o) := by
    intro db' o hok
    obtain ⟨t, items, -, hc, -, hb, -, -⟩ := create_order_ok_inv hok
    rcases h with hempty | ⟨ci, hci, hshort⟩
    · exact hc hempty
    · obtain ⟨p, hp, inv, hi, hle⟩ :=
        buildOrderItems_checks db _ t items hb ci hci
      unfold inventoryShortage at hshort
      rw [hi] at hshort
      exact absurd hle (not_le.mpr hshort)
  cases hres : create_order db cid od now with
  | ok p =>
    obtain ⟨db', o⟩ := p
    exact absurd hres (herr db' o)
  | error e =>
    obtain ⟨h400, -, -⟩ := create_order_error_cases hres
    exact ⟨e, rfl, h400, by simp [runCreateOrder, hres]⟩

/-- Witness for C4: customer 99 has an empty cart on the sample database,
and the call leaves the state untouched. -/
theorem create_order_failure_rollback_witness :
    ∃ e, create_order sampleDB 99 sampleOrderCreate 0 = Except.error e ∧
      Err.statusCode e = 400 ∧
      runCreateOrder sampleDB 99 sampleOrderCreate 0 = (sampleDB, none) :=
  create_order_failure_rollback sampleDB 99 sampleOrderCreate 0
    (Or.inl (by decide))

theorem findOrder_some {db : DB} {cid oid : ℕ} {o : Order}
    (h : findOrder db cid oid = some o) :
    o.order_id = oid ∧ o.customer_id = cid := by
  have := List.find?_some h
  simp only [Bool.and_eq_true, beq_iff_eq] at this
  exact this

/-- Mutating the fetched order updates exactly the row `find?` returns. -/
theorem find_replaceFirstOrder {orders : List Order} {oid cid : ℕ}
    {o o' : Order}
    (h : orders.find?
      (fun x => x.order_id == oid && x.customer_id == cid) = some o)
    (h1 : o'.order_id = oid) (h2 : o'.customer_id = cid) :
    (replaceFirstOrder orders oid cid o').find?
      (fun x => x.order_id == oid && x.customer_id == cid) = some o' := by
  induction orders with
  | nil => cases h
  | cons a l ih =>
    simp only [replaceFirstOrder]
    by_cases ha : (a.order_id == oid && a.customer_id == cid) = true
    · rw [if_pos ha]
      exact List.find?_cons_of_pos _ (by simp [h1, h2])
    · rw [if_neg ha]
      rw [List.find?_cons_of_neg
        (p := fun x : Order => x.order_id == oid && x.customer_id == cid)
        _ ha] at h
      rw [List.find?_cons_of_neg
        (p := fun x : Order => x.order_id == oid && x.customer_id == cid)
        _ ha]
      exact ih h

/-- C8: `process_payment` raises the 404 exactly when the order does not
exist for the customer; given the order, a cancelled status or an already
completed payment yields a 400; every created payment has amount equal to
the order's `final_amount` and is stored, and the order's status is set to
"confirmed" exactly when the simulated outcome succeeds (otherwise the
order row is untouched). -/
theorem process_payment_spec (db : DB) (cid oid : ℕ) (pd : PaymentCreate)
    (success : Bool) (now : ℤ) :
    (process_payment db cid oid pd success now =
        Except.error Err.orderNotFound ↔ findOrder db cid oid = none) ∧
    Err.statusCode Err.orderNotFound = 404 ∧
    (∀ o, findOrder db cid oid = some o →
      ((o.status = "cancelled" ∨ completedPaymentExists db oid = true) →
        ∃ e, process_payment db cid oid pd success now = Except.error e ∧
          Err.statusCode e = 400) ∧
      (∀ db' p, process_payment db cid oid pd success now =
          Except.ok (db', p) →
        p.amount = o.final_amount ∧ p.order_id = oid ∧
        db'.payments = db.payments ++ [p] ∧
        (success = true → findOrder db' cid oid =
          some { o with status := "confirmed", updated_at := now }) ∧
        (success = false → findOrder db' cid oid = some o))) := by
  refine ⟨⟨?_, ?_⟩, rfl, ?_⟩
  · intro h
    cases hf : findOrder db cid oid with
    | none => rfl
    | some o =>
      exfalso
      simp only [process_payment, hf] at h
      by_cases hc : (o.status == "cancelled") = true
      · rw [if_pos hc] at h; cases h
      · rw [if_neg hc] at h
        by_cases hp : completedPaymentExists db oid = true
        · rw [if_pos hp] at h; cases h
        · rw [if_neg hp] at h; cases h
  · intro h
    simp [process_payment, h]
  · intro o hf
    constructor
    · rintro (hc | hcp)
      · exact ⟨Err.cannotPayCancelled,
          by simp [process_payment, hf, hc], rfl⟩
      · by_cases hc : o.status = "cancelled"
        · exact ⟨Err.cannotPayCancelled,
            by simp [process_payment, hf, hc], rfl⟩
        · exact ⟨Err.paymentCompleted,
            by simp [process_payment, hf, hc, hcp], rfl⟩
    · intro db' p hok
      simp only [process_payment, hf] at hok
      by_cases hc : (o.status == "cancelled") = true
      · rw [if_pos hc] at hok; cases hok
      · rw [if_neg hc] at hok
        by_cases hp : completedPaymentExists db oid = true
        · rw [if_pos hp] at hok; cases hok
        · rw [if_neg hp] at hok
          simp only [Except.ok.injEq, Prod.mk.injEq] at hok
          obtain ⟨hdb, hpay⟩ := hok
          subst hpay
          obtain ⟨ho1, ho2⟩ := findOrder_some hf
          refine ⟨rfl, rfl, by rw [← hdb], ?_, ?_⟩
          · intro hs
            subst hs
            rw [← hdb]
            show (if true = true then replaceFirstOrder db.orders oid cid _
              else db.orders).find? _ = _
            rw [if_pos rfl]
            exact find_replaceFirstOrder hf ho1 ho2
          · intro hs
            subst hs
            rw [← hdb]
            exact hf

def samplePendingOrder : Order :=
  { sampleOrder with order_id := 1, customer_id := 7, status := "pending" }

def paymentSampleDB : DB := { sampleDB with orders := [samplePendingOrder] }

def samplePaymentCreate : PaymentCreate :=
  { payment_gateway := "razorpay", method := "card" }

/-- Witness for C8: instantiates the payment characterisation on a concrete
pending order with a successful simulated outcome. -/
theorem process_payment_spec_witness :
    (process_payment paymentSampleDB 7 1 samplePaymentCreate true 0 =
        Except.error Err.orderNotFound ↔
      findOrder paymentSampleDB 7 1 = none) ∧
    Err.statusCode Err.orderNotFound = 404 ∧
    (∀ o, findOrder paymentSampleDB 7 1 = some o →
      ((o.status = "cancelled" ∨
          completedPaymentExists paymentSampleDB 1 = true) →
        ∃ e, process_payment paymentSampleDB 7 1 samplePaymentCreate true 0 =
            Except.error e ∧ Err.statusCode e = 400) ∧
      (∀ db' p, process_payment paymentSampleDB 7 1 samplePaymentCreate
          true 0 = Except.ok (db', p) →
        p.amount = o.final_amount ∧ p.order_id = 1 ∧
        db'.payments = paymentSampleDB.payments ++ [p] ∧
        (true = true → findOrder db' 7 1 =
          some { o with status := "confirmed", updated_at := 0 }) ∧
        (true = false → findOrder db' 7 1 = some o))) :=
  process_payment_spec paymentSampleDB 7 1 samplePaymentCreate true 0

/-- The `len(filter(Refund.order_id == oid))` over the refunds table. -/
def countRefunds (db : DB) (oid : ℕ) : ℕ :=
  (db.refunds.filter (fun r => r.order_id == oid)).length

theorem countRefunds_zero_of_not_exists {db : DB} {oid : ℕ}
    (h : refundExistsFor db oid = false) : countRefunds db oid = 0 := by
  unfold refundExistsFor at h
  unfold countRefunds
  cases hfind : List.find? (fun r => r.order_id == oid) db.refunds with
  | some r => rw [hfind] at h; cases h
  | none =>
    rw [List.find?_eq_none] at hfind
    rw [List.length_eq_zero, List.filter_eq_nil_iff]
    exact hfind

/-- C7: `request_refund` raises the 404 exactly when the order does not
exist for the customer; given the order it raises a 400 exactly when the
order fails `is_refund_eligible` or a refund row already exists; otherwise
it appends exactly one pending `Refund` whose amount is
`calculate_refund_amount` at the policy of `determine_refund_policy`, so a
state with at most one refund per order keeps that invariant. -/
theorem request_refund_spec (db : DB) (cid oid : ℕ) (reason : String)
    (now : ℤ) :
    (request_refund db cid oid reason now = Except.error Err.orderNotFound ↔
      findOrder db cid oid = none) ∧
    Err.statusCode Err.orderNotFound = 404 ∧
    (∀ o, findOrder db cid oid = some o →
      ((∃ e, request_refund db cid oid reason now = Except.error e ∧
          Err.statusCode e = 400) ↔
        (is_refund_eligible now o = false ∨ refundExistsFor db oid = true)) ∧
      (∀ db' r, request_refund db cid oid reason now = Except.ok (db', r) →
        r.status = RefundStatus.pending ∧ r.order_id = oid ∧
        r.amount = calculate_refund_amount o (determine_refund_policy now o) ∧
        db'.refunds = db.refunds ++ [r])) ∧
    (∀ db' r, request_refund db cid oid reason now = Except.ok (db', r) →
      ∀ n, countRefunds db n ≤ 1 → countRefunds db' n ≤ 1) := by
  have hok_inv : ∀ db' r,
      request_refund db cid oid reason now = Except.ok (db', r) →
      ∃ o, findOrder db cid oid = some o ∧
        is_refund_eligible now o = true ∧
        refundExistsFor db oid = false ∧
        r.status = RefundStatus.pending ∧ r.order_id = oid ∧
        r.amount = calculate_refund_amount o (determine_refund_policy now o) ∧
        db'.refunds = db.refunds ++ [r] := by
    intro db' r h
    cases hf : findOrder db cid oid with
    | none => simp [request_refund, hf] at h
    | some o =>
      simp only [request_refund, hf] at h
      by_cases he : is_refund_eligible now o = true
      · rw [if_neg (not_not_intro he)] at h
        by_cases hx : refundExistsFor db oid = true
        · rw [if_pos hx] at h; cases h
        · rw [if_neg hx] at h
          simp only [Except.ok.injEq, Prod.mk.injEq] at h
          obtain ⟨hdb, hr⟩ := h
          subst hr
          exact ⟨o, rfl, he, Bool.eq_false_iff.mpr hx, rfl, rfl, rfl,
            by rw [← hdb]⟩
      · rw [if_pos he] at h; cases h
  refine ⟨⟨?_, ?_⟩, rfl, ?_, ?_⟩
  · intro h
    cases hf : findOrder db cid oid with
    | none => rfl
    | some o =>
      exfalso
      simp only [request_refund, hf] at h
      by_cases he : is_refund_eligible now o = true
      · rw [if_neg (not_not_intro he)] at h
        by_cases hx : refundExistsFor db oid = true
        · rw [if_pos hx] at h; cases h
        · rw [if_neg hx] at h; cases h
      · rw [if_pos he] at h; cases h
  · intro h
    simp [request_refund, h]
  · intro o hf
    constructor
    · constructor
      · rintro ⟨e, herr, -⟩
        by_cases he : is_refund_eligible now o = true
        · by_cases hx : refundExistsFor db oid = true
          · exact Or.inr hx
          · exfalso
            simp only [request_refund, hf, if_neg (not_not_intro he),
              if_neg hx] at herr
            cases herr
        · exact Or.inl (Bool.eq_false_iff.mpr he)
      · rintro (he | hx)
        · refine ⟨Err.notEligible, ?_, rfl⟩
          simp [request_refund, hf, he]
        · by_cases he : is_refund_eligible now o = true
          · refine ⟨Err.refundExists, ?_, rfl⟩
            simp [request_refund, hf, he, hx]
          · refine ⟨Err.notEligible, ?_, rfl⟩
            simp [request_refund, hf, Bool.eq_false_iff.mpr he]
    · intro db' r h
      obtain ⟨o', hf', -, -, hst, hrid, hamt, hdb⟩ := hok_inv db' r h
      rw [hf] at hf'
      cases hf'
      exact ⟨hst, hrid, hamt, hdb⟩
  · intro db' r h n hle
    obtain ⟨o', -, -, hnx, -, hrid, -, hdb⟩ := hok_inv db' r h
    unfold countRefunds
    rw [hdb, List.filter_append, List.length_append]
    by_cases hn : n = oid
    · subst hn
      have h0 := countRefunds_zero_of_not_exists hnx
      unfold countRefunds at h0
      rw [h0]
      simpa using List.length_filter_le _ [r]
    · have hbe : (oid == n) = false := by
        simp [Ne.symm hn]
      have : (List.filter (fun x => x.order_id == n) [r]).length = 0 := by
        simp [List.filter, hrid, hbe]
      rw [this]
      simpa [countRefunds] using hle

def refundSampleDB : DB :=
  { sampleDB with orders := [{ sampleOrder with order_id := 1, customer_id := 7 }] }

/-- Witness for C7: instantiates the refund characterisation on a cancelled
order of age 1/2 hour with an empty refunds table. -/
theorem request_refund_spec_witness :
    (request_refund refundSampleDB 7 1 "damaged" 1800 =
        Except.error Err.orderNotFound ↔ findOrder refundSampleDB 7 1 = none) ∧
    Err.statusCode Err.orderNotFound = 404 ∧
    (∀ o, findOrder refundSampleDB 7 1 = some o →
      ((∃ e, request_refund refundSampleDB 7 1 "damaged" 1800 =
          Except.error e ∧ Err.statusCode e = 400) ↔
        (is_refund_eligible 1800 o = false ∨
          refundExistsFor refundSampleDB 1 = true)) ∧
      (∀ db' r, request_refund refundSampleDB 7 1 "damaged" 1800 =
          Except.ok (db', r) →
        r.status = RefundStatus.pending ∧ r.order_id = 1 ∧
        r.amount = calculate_refund_amount o
          (determine_refund_policy 1800 o) ∧
        db'.refunds = refundSampleDB.refunds ++ [r])) ∧
    (∀ db' r, request_refund refundSampleDB 7 1 "damaged" 1800 =
        Except.ok (db', r) →
      ∀ n, countRefunds refundSampleDB n ≤ 1 → countRefunds db' n ≤ 1) :=
  request_refund_spec refundSampleDB 7 1 "damaged" 1800


/-- The record produced by the inventory write of `create_order`:
stock reduced by the ordered quantity, the row marked unavailable when the
new stock is 0 or below. -/
def updInv (inv : PharmacyInventory) (qty : ℤ) : PharmacyInventory :=
  { inv with
      quantity_in_stock := inv.quantity_in_stock - qty,
      is_available :=
        if inv.quantity_in_stock - qty ≤ 0 then false
        else inv.is_available }

/-- The record produced by the inventory restore of `cancel_my_order`. -/
def restInv (inv : PharmacyInventory) (qty : ℤ) : PharmacyInventory :=
  { inv with
      quantity_in_stock := inv.quantity_in_stock + qty,
      is_available := true }

/-- Position of the row `.first()` returns among the available rows of a
product. -/
def firstAvailIdx (invs : List PharmacyInventory) (pid : ℕ) : Option ℕ :=
  match invs with
  | [] => none
  | inv :: rest =>
    if inv.product_id == pid && inv.is_available then some 0
    else (firstAvailIdx rest pid).map (· + 1)

/-- Position of the first row of a product regardless of availability (the
row `cancel_my_order`'s restore fetches). -/
def firstIdx (invs : List PharmacyInventory) (pid : ℕ) : Option ℕ :=
  match invs with
  | [] => none
  | inv :: rest =>
    if inv.product_id == pid then some 0
    else (firstIdx rest pid).map (· + 1)

/-- The row found by `findAvailableInventory` sits at `firstAvailIdx`. -/
theorem findAvailableInventory_idx {invs : List PharmacyInventory} {pid : ℕ}
    {inv : PharmacyInventory}
    (h : findAvailableInventory invs pid = some inv) :
    ∃ i, firstAvailIdx invs pid = some i ∧ invs[i]? = some inv := by
  induction invs with
  | nil => cases h
  | cons a l ih =>
    by_cases ha : (a.product_id == pid && a.is_available) = true
    · rw [findAvailableInventory, List.find?_cons_of_pos
        (p := fun v : PharmacyInventory =>
          v.product_id == pid && v.is_available) _ ha] at h
      cases h
      refine ⟨0, ?_, by simp⟩
      simp only [firstAvailIdx]
      rw [if_pos ha]
    · rw [findAvailableInventory, List.find?_cons_of_neg
        (p := fun v : PharmacyInventory =>
          v.product_id == pid && v.is_available) _ ha] at h
      obtain ⟨j, hj, hget⟩ := ih h
      refine ⟨j + 1, ?_, by simpa using hget⟩
      simp only [firstAvailIdx]
      rw [if_neg ha, hj]
      rfl

/-- The decrement step rewrites exactly the row at `firstAvailIdx`. -/
theorem decrementFirstAvailable_eq_set {invs : List PharmacyInventory}
    {pid : ℕ} {i : ℕ}
    (h : firstAvailIdx invs pid = some i) :
    ∃ inv, invs[i]? = some inv ∧ inv.product_id = pid ∧
      inv.is_available = true ∧
      ∀ qty, decrementFirstAvailable invs pid qty =
        invs.set i (updInv inv qty) := by
  induction invs generalizing i with
  | nil => cases h
  | cons a l ih =>
    by_cases ha : (a.product_id == pid && a.is_available) = true
    · simp only [firstAvailIdx] at h
      rw [if_pos ha] at h
      cases h
      obtain ⟨hpid, hav⟩ := by simpa using ha
      refine ⟨a, by simp, hpid, hav, fun qty => ?_⟩
      simp only [decrementFirstAvailable]
      rw [if_pos ha]
      rfl
    · simp only [firstAvailIdx] at h
      rw [if_neg ha] at h
      cases hj : firstAvailIdx l pid with
      | none => rw [hj] at h; cases h
      | some j =>
        rw [hj] at h
        simp only [Option.map_some', Option.some.injEq] at h
        subst h
        obtain ⟨inv, h1, h2, h3, h4⟩ := ih hj
        refine ⟨inv, by simpa using h1, h2, h3, fun qty => ?_⟩
        simp only [decrementFirstAvailable]
        rw [if_neg ha, h4 qty]
        rfl

/-- When no available row exists the decrement is a no-op. -/
theorem decrementFirstAvailable_of_none {invs : List PharmacyInventory}
    {pid : ℕ} (h : firstAvailIdx invs pid = none) (qty : ℤ) :
    decrementFirstAvailable invs pid qty = invs := by
  induction invs with
  | nil => rfl
  | cons a l ih =>
    by_cases ha : (a.product_id == pid && a.is_available) = true
    · simp only [firstAvailIdx] at h
      rw [if_pos ha] at h
      cases h
    · simp only [firstAvailIdx] at h
      rw [if_neg ha, Option.map_eq_none'] at h
      simp only [decrementFirstAvailable]
      rw [if_neg ha, ih h]

/-- Rows of other products are untouched by the decrement, positionally. -/
theorem decrementFirstAvailable_getElem_ne {l : List PharmacyInventory}
    {pid : ℕ} {j : ℕ} {y : PharmacyInventory}
    (hy : l[j]? = some y) (hne : y.product_id ≠ pid) (qty : ℤ) :
    (decrementFirstAvailable l pid qty)[j]? = some y := by
  induction l generalizing j with
  | nil => cases hy
  | cons a l ih =>
    by_cases ha : (a.product_id == pid && a.is_available) = true
    · cases j with
      | zero =>
        simp only [List.getElem?_cons_zero, Option.some.injEq] at hy
        subst hy
        obtain ⟨hpid, -⟩ := by simpa using ha
        exact absurd hpid hne
      | succ j' =>
        simp only [List.getElem?_cons_succ] at hy
        simp only [decrementFirstAvailable]
        rw [if_pos ha]
        simpa using hy
    · simp only [decrementFirstAvailable]
      rw [if_neg ha]
      cases j with
      | zero =>
        simpa using hy
      | succ j' =>
        simp only [List.getElem?_cons_succ] at hy ⊢
        exact ih hy

/-- The `firstAvailIdx` for another product is stable under the decrement. -/
theorem firstAvailIdx_dec_ne {l : List PharmacyInventory} {pid pid' : ℕ}
    (hne : pid' ≠ pid) (qty : ℤ) :
    firstAvailIdx (decrementFirstAvailable l pid qty) pid' =
      firstAvailIdx l pid' := by
  induction l with
  | nil => rfl
  | cons a l ih =>
    by_cases ha : (a.product_id == pid && a.is_available) = true
    · obtain ⟨hpid, -⟩ := by simpa using ha
      have hb : ((updInv a qty).product_id == pid' &&
          (updInv a qty).is_available) = false := by
        simp [updInv, hpid, Ne.symm hne]
      have hb' : (a.product_id == pid' && a.is_available) = false := by
        simp [hpid, Ne.symm hne]
      simp only [decrementFirstAvailable]
      rw [if_pos ha]
      show firstAvailIdx (updInv a qty :: l) pid' = _
      simp only [firstAvailIdx]
      rw [if_neg (by simp [hb]), if_neg (by simp [hb'])]
    · simp only [decrementFirstAvailable]
      rw [if_neg ha]
      by_cases hb : (a.product_id == pid' && a.is_available) = true
      · simp only [firstAvailIdx]
        rw [if_pos hb, if_pos hb]
      · simp only [firstAvailIdx]
        rw [if_neg hb, if_neg hb, ih]

/-- The `findAvailableInventory` for another product is stable under the
decrement. -/
theorem findAvailableInventory_dec_ne {l : List PharmacyInventory}
    {pid pid' : ℕ} (hne : pid' ≠ pid) (qty : ℤ) :
    findAvailableInventory (decrementFirstAvailable l pid qty) pid' =
      findAvailableInventory l pid' := by
  induction l with
  | nil => rfl
  | cons a l ih =>
    by_cases ha : (a.product_id == pid && a.is_available) = true
    · obtain ⟨hpid, -⟩ := by simpa using ha
      simp only [decrementFirstAvailable]
      rw [if_pos ha]
      show List.find? _ (updInv a qty :: l) = _
      simp only [findAvailableInventory]
      rw [List.find?_cons_of_neg (p := fun v : PharmacyInventory =>
            v.product_id == pid' && v.is_available) _
          (by simp [updInv, hpid, Ne.symm hne]),
        List.find?_cons_of_neg (p := fun v : PharmacyInventory =>
            v.product_id == pid' && v.is_available) _
          (by simp [hpid, Ne.symm hne])]
    · simp only [decrementFirstAvailable]
      rw [if_neg ha]
      by_cases hb : (a.product_id == pid' && a.is_available) = true
      · simp only [findAvailableInventory]
        rw [List.find?_cons_of_pos (p := fun v : PharmacyInventory =>
            v.product_id == pid' && v.is_available) _ hb,
          List.find?_cons_of_pos (p := fun v : PharmacyInventory =>
            v.product_id == pid' && v.is_available) _ hb]
      · simp only [findAvailableInventory]
        rw [List.find?_cons_of_neg (p := fun v : PharmacyInventory =>
            v.product_id == pid' && v.is_available) _ hb,
          List.find?_cons_of_neg (p := fun v : PharmacyInventory =>
            v.product_id == pid' && v.is_available) _ hb]
        simpa [findAvailableInventory] using ih

/-- Rows whose product is not ordered are untouched by the whole inventory
update loop. -/
theorem applyInventoryUpdates_getElem_frame :
    ∀ (t : List OrderItemData) (invs : List PharmacyInventory) (j : ℕ)
      (y : PharmacyInventory),
      invs[j]? = some y → (∀ e ∈ t, e.product_id ≠ y.product_id) →
      (applyInventoryUpdates invs t)[j]? = some y := by
  intro t
  induction t with
  | nil => intro invs j y hy _; exact hy
  | cons e t ih =>
    intro invs j y hy hne
    have h1 : (decrementFirstAvailable invs e.product_id e.quantity)[j]? =
        some y :=
      decrementFirstAvailable_getElem_ne hy
        (fun hc => hne e (List.mem_cons_self _ _) hc.symm) e.quantity
    exact ih _ j y h1 (fun d hd => hne d (List.mem_cons_of_mem _ hd))

/-- Per ordered product, the whole update loop rewrites the first available
row to its decremented record, provided ordered products are pairwise
distinct and each has an available row. -/
theorem applyInventoryUpdates_getElem (ds : List OrderItemData) :
    ∀ (invs : List PharmacyInventory),
      ds.Pairwise (fun a b => a.product_id ≠ b.product_id) →
      (∀ d ∈ ds, ∃ inv,
        findAvailableInventory invs d.product_id = some inv) →
      ∀ d ∈ ds, ∃ i inv,
        firstAvailIdx invs d.product_id = some i ∧
        invs[i]? = some inv ∧ inv.is_available = true ∧
        inv.product_id = d.product_id ∧
        (applyInventoryUpdates invs ds)[i]? =
          some (updInv inv d.quantity) := by
  induction ds with
  | nil => intro invs _ _ d hd; cases hd
  | cons d t ih =>
    intro invs hpw hex d' hd'
    obtain ⟨invd, hfind⟩ := hex d (List.mem_cons_self _ _)
    obtain ⟨i, hidx, -⟩ := findAvailableInventory_idx hfind
    obtain ⟨inv0, hget0, hpid0, hav0, hdec⟩ :=
      decrementFirstAvailable_eq_set hidx
    obtain ⟨hhead, htail⟩ := List.pairwise_cons.mp hpw
    have hstep : applyInventoryUpdates invs (d :: t) =
        applyInventoryUpdates
          (decrementFirstAvailable invs d.product_id d.quantity) t := rfl
    rcases List.mem_cons.mp hd' with rfl | hmem
    · refine ⟨i, inv0, hidx, hget0, hav0, hpid0, ?_⟩
      rw [hstep, hdec d'.quantity]
      have hlen : i < invs.length := (List.getElem?_eq_some.mp hget0).1
      refine applyInventoryUpdates_getElem_frame t _ i _ ?_ ?_
      · rw [List.getElem?_set_self (by simpa using hlen)]
      · intro e he hc
        exact hhead e he (by rw [hc]; simp [updInv, hpid0])
    · have hne : d.product_id ≠ d'.product_id := hhead d' hmem
      have hex' : ∀ e ∈ t, ∃ inv, findAvailableInventory
          (decrementFirstAvailable invs d.product_id d.quantity)
          e.product_id = some inv := by
        intro e he
        obtain ⟨inv, hinv⟩ := hex e (List.mem_cons_of_mem _ he)
        exact ⟨inv, by rw [findAvailableInventory_dec_ne
          (fun hc => hhead e he hc.symm) d.quantity]; exact hinv⟩
      obtain ⟨i', inv', hidx', hget', hav', hpid', hfin⟩ :=
        ih _ htail hex' d' hmem
      rw [firstAvailIdx_dec_ne (Ne.symm hne) d.quantity] at hidx'
      obtain ⟨y, hy, hypid, hyav, -⟩ := decrementFirstAvailable_eq_set hidx'
      have hy' : (decrementFirstAvailable invs d.product_id
          d.quantity)[i']? = some y :=
        decrementFirstAvailable_getElem_ne hy
          (by rw [hypid]; exact Ne.symm hne) d.quantity
      rw [hget'] at hy'
      cases hy'
      exact ⟨i', inv', hidx', hy, hav', hpid', by rw [hstep]; exact hfin⟩

/-- C5: on a successful `create_order` (with the cart invariant that the
customer's cart has at most one row per product, as maintained by
`add_to_cart`): the created order has status "pending"; the customer's cart
rows are all deleted; every created order item is auto-verified exactly
when its product needs no prescription; and for each cart item the first
available inventory row of its product is decremented by the ordered
quantity, with `is_available` turned off exactly when the resulting stock
is 0 or below. -/
theorem create_order_success_effects {db : DB} {cid : ℕ} {od : OrderCreate}
    {now : ℤ} {db' : DB} {o : Order}
    (h : create_order db cid od now = Except.ok (db', o))
    (hdistinct : (customerCart db cid).Pairwise
      (fun a b => a.product_id ≠ b.product_id)) :
    o.status = "pending" ∧
    db'.cart_items = db.cart_items.filter (fun c => c.customer_id != cid) ∧
    (∀ c ∈ db'.cart_items, c.customer_id ≠ cid) ∧
    (∃ new, db'.order_items = db.order_items ++ new ∧
      ∀ oi ∈ new,
        oi.prescription_verified = !oi.requires_prescription ∧
        ∃ p, findProduct db oi.product_id = some p ∧
          oi.requires_prescription = p.requires_prescription ∧
          (oi.prescription_verified = true ↔
            p.requires_prescription = false)) ∧
    (∀ ci ∈ customerCart db cid, ∃ i inv,
      firstAvailIdx db.inventories ci.product_id = some i ∧
      db.inventories[i]? = some inv ∧
      inv.is_available = true ∧
      db'.inventories[i]? = some (updInv inv ci.quantity) ∧
      (updInv inv ci.quantity).quantity_in_stock =
        inv.quantity_in_stock - ci.quantity ∧
      ((updInv inv ci.quantity).is_available = false ↔
        inv.quantity_in_stock - ci.quantity ≤ 0)) := by
  obtain ⟨t, items, -, -, -, hb, ho, hdb⟩ := create_order_ok_inv h
  subst ho
  subst hdb
  have hmap := (buildOrderItems_map db _ t items hb).1
  have hds : items.Pairwise (fun a b => a.product_id ≠ b.product_id) := by
    have h1 : (items.map (fun d => d.product_id)).Pairwise
        (fun a b => a ≠ b) := by
      rw [hmap]
      exact List.pairwise_map.mpr hdistinct
    exact List.pairwise_map.mp h1
  have hex : ∀ d ∈ items, ∃ inv,
      findAvailableInventory db.inventories d.product_id = some inv := by
    intro d hd
    have hmem : d.product_id ∈ items.map (fun d => d.product_id) :=
      List.mem_map_of_mem _ hd
    rw [hmap] at hmem
    obtain ⟨ci, hci, hpid⟩ := List.mem_map.mp hmem
    obtain ⟨p, -, inv, hinv, -⟩ :=
      buildOrderItems_checks db _ t items hb ci hci
    exact ⟨inv, by rw [← hpid]; exact hinv⟩
  refine ⟨rfl, rfl, ?_, ?_, ?_⟩
  · intro c hc
    have := List.of_mem_filter hc
    simpa using this
  · refine ⟨items.map (mkOrderItemRow (mkNewOrder db cid od now t).order_id),
      rfl, ?_⟩
    intro oi hoi
    obtain ⟨d, hd, hoieq⟩ := List.mem_map.mp hoi
    subst hoieq
    obtain ⟨p, hp, hreq⟩ := buildOrderItems_items db _ t items hb d hd
    refine ⟨rfl, p, hp, hreq, ?_⟩
    show (!d.requires_prescription) = true ↔ p.requires_prescription = false
    rw [← hreq]
    cases d.requires_prescription <;> simp
  · intro ci hci
    obtain ⟨d, hd, hdpid, hdq⟩ :=
      buildOrderItems_matches db _ t items hb ci hci
    obtain ⟨i, inv, hidx, hget, hav, -, hfin⟩ :=
      applyInventoryUpdates_getElem items db.inventories hds hex d hd
    rw [hdpid] at hidx
    rw [hdq] at hfin
    refine ⟨i, inv, hidx, hget, hav, hfin, rfl, ?_⟩
    by_cases hle : inv.quantity_in_stock - ci.quantity ≤ 0 <;>
      simp [updInv, hle, hav]

/-- Witness for C5: the sample run, with the cart invariant discharged on
the singleton cart. -/
theorem create_order_success_effects_witness :
    sampleNewOrder.status = "pending" ∧
    sampleNewDB.cart_items =
      sampleDB.cart_items.filter (fun c => c.customer_id != 7) ∧
    (∀ c ∈ sampleNewDB.cart_items, c.customer_id ≠ 7) ∧
    (∃ new, sampleNewDB.order_items = sampleDB.order_items ++ new ∧
      ∀ oi ∈ new,
        oi.prescription_verified = !oi.requires_prescription ∧
        ∃ p, findProduct sampleDB oi.product_id = some p ∧
          oi.requires_prescription = p.requires_prescription ∧
          (oi.prescription_verified = true ↔
            p.requires_prescription = false)) ∧
    (∀ ci ∈ customerCart sampleDB 7, ∃ i inv,
      firstAvailIdx sampleDB.inventories ci.product_id = some i ∧
      sampleDB.inventories[i]? = some inv ∧
      inv.is_available = true ∧
      sampleNewDB.inventories[i]? = some (updInv inv ci.quantity) ∧
      (updInv inv ci.quantity).quantity_in_stock =
        inv.quantity_in_stock - ci.quantity ∧
      ((updInv inv ci.quantity).is_available = false ↔
        inv.quantity_in_stock - ci.quantity ≤ 0)) :=
  create_order_success_effects sample_create_ok (by decide)

/-- The restore step rewrites exactly the row at `firstIdx`. -/
theorem restoreFirstInventory_eq_set {invs : List PharmacyInventory}
    {pid : ℕ} {i : ℕ}
    (h : firstIdx invs pid = some i) :
    ∃ inv, invs[i]? = some inv ∧ inv.product_id = pid ∧
      ∀ qty, restoreFirstInventory invs pid qty =
        invs.set i (restInv inv qty) := by
  induction invs generalizing i with
  | nil => cases h
  | cons a l ih =>
    by_cases ha : (a.product_id == pid) = true
    · simp only [firstIdx] at h
      rw [if_pos ha] at h
      cases h
      refine ⟨a, by simp, by simpa using ha, fun qty => ?_⟩
      simp only [restoreFirstInventory]
      rw [if_pos ha]
      rfl
    · simp only [firstIdx] at h
      rw [if_neg ha] at h
      cases hj : firstIdx l pid with
      | none => rw [hj] at h; cases h
      | some j =>
        rw [hj] at h
        simp only [Option.map_some', Option.some.injEq] at h
        subst h
        obtain ⟨inv, h1, h2, h3⟩ := ih hj
        refine ⟨inv, by simpa using h1, h2, fun qty => ?_⟩
        simp only [restoreFirstInventory]
        rw [if_neg ha, h3 qty]
        rfl

/-- The `firstIdx` only looks at `product_id`, so replacing a row by one of the
same product leaves it unchanged. -/
theorem firstIdx_set_pid {invs : List PharmacyInventory} {i : ℕ}
    {x y : PharmacyInventory}
    (hy : invs[i]? = some y) (hx : x.product_id = y.product_id) :
    ∀ pid', firstIdx (invs.set i x) pid' = firstIdx invs pid' := by
  induction invs generalizing i with
  | nil => cases hy
  | cons a l ih =>
    intro pid'
    cases i with
    | zero =>
      simp only [List.getElem?_cons_zero, Option.some.injEq] at hy
      subst hy
      show firstIdx (x :: l) pid' = firstIdx (a :: l) pid'
      simp only [firstIdx, hx]
    | succ i' =>
      simp only [List.getElem?_cons_succ] at hy
      show firstIdx (a :: l.set i' x) pid' = firstIdx (a :: l) pid'
      simp only [firstIdx]
      rw [ih hy pid']

/-- The decrement never moves `firstIdx` (it preserves every
`product_id`). -/
theorem firstIdx_dec {invs : List PharmacyInventory} (pid : ℕ) (qty : ℤ) :
    ∀ pid', firstIdx (decrementFirstAvailable invs pid qty) pid' =
      firstIdx invs pid' := by
  intro pid'
  cases hfa : firstAvailIdx invs pid with
  | none => rw [decrementFirstAvailable_of_none hfa]
  | some i =>
    obtain ⟨inv, hget, -, -, hdec⟩ := decrementFirstAvailable_eq_set hfa
    rw [hdec qty]
    exact firstIdx_set_pid hget (by simp [updInv]) pid'

/-- The whole update loop never moves `firstIdx`. -/
theorem firstIdx_applyUpdates (ds : List OrderItemData) :
    ∀ (invs : List PharmacyInventory) (pid' : ℕ),
      firstIdx (applyInventoryUpdates invs ds) pid' =
        firstIdx invs pid' := by
  induction ds with
  | nil => intro invs pid'; rfl
  | cons d t ih =>
    intro invs pid'
    show firstIdx (applyInventoryUpdates
      (decrementFirstAvailable invs d.product_id d.quantity) t) pid' = _
    rw [ih _ pid', firstIdx_dec d.product_id d.quantity pid']

/-- Replacing a row of a foreign product commutes with the decrement. -/
theorem decrementFirstAvailable_set_comm {l : List PharmacyInventory}
    {i : ℕ} {x y : PharmacyInventory} {pid : ℕ}
    (hy : l[i]? = some y) (hyne : y.product_id ≠ pid)
    (hxne : x.product_id ≠ pid) (qty : ℤ) :
    decrementFirstAvailable (l.set i x) pid qty =
      (decrementFirstAvailable l pid qty).set i x := by
  induction l generalizing i with
  | nil => cases hy
  | cons a l ih =>
    cases i with
    | zero =>
      simp only [List.getElem?_cons_zero, Option.some.injEq] at hy
      subst hy
      show decrementFirstAvailable (x :: l) pid qty = _
      have hax : (x.product_id == pid && x.is_available) = false := by
        simp [hxne]
      have hay : (a.product_id == pid && a.is_available) = false := by
        simp [hyne]
      simp only [decrementFirstAvailable]
      rw [if_neg (by simp [hax]), if_neg (by simp [hay])]
      rfl
    | succ i' =>
      simp only [List.getElem?_cons_succ] at hy
      show decrementFirstAvailable (a :: l.set i' x) pid qty = _
      by_cases ha : (a.product_id == pid && a.is_available) = true
      · simp only [decrementFirstAvailable]
        rw [if_pos ha, if_pos ha]
        rfl
      · simp only [decrementFirstAvailable]
        rw [if_neg ha, if_neg ha]
        show _ :: decrementFirstAvailable (l.set i' x) pid qty = _
        rw [ih hy]
        rfl

/-- Replacing a row of a product not ordered later commutes with the whole
update loop. -/
theorem applyInventoryUpdates_set_comm (t : List OrderItemData) :
    ∀ (l : List PharmacyInventory) (i : ℕ) (x y : PharmacyInventory),
      l[i]? = some y → x.product_id = y.product_id →
      (∀ e ∈ t, e.product_id ≠ y.product_id) →
      applyInventoryUpdates (l.set i x) t =
        (applyInventoryUpdates l t).set i x := by
  induction t with
  | nil => intro l i x y _ _ _; rfl
  | cons e t ih =>
    intro l i x y hy hx hne
    have hyne : y.product_id ≠ e.product_id :=
      fun hc => hne e (List.mem_cons_self _ _) hc.symm
    have hstep : decrementFirstAvailable (l.set i x) e.product_id
        e.quantity = (decrementFirstAvailable l e.product_id
          e.quantity).set i x :=
      decrementFirstAvailable_set_comm hy hyne
        (by rw [hx]; exact hyne) e.quantity
    show applyInventoryUpdates
        (decrementFirstAvailable (l.set i x) e.product_id e.quantity) t = _
    rw [hstep]
    have hy' : (decrementFirstAvailable l e.product_id e.quantity)[i]? =
        some y :=
      decrementFirstAvailable_getElem_ne hy hyne e.quantity
    exact ih _ i x y hy' hx (fun d hd => hne d (List.mem_cons_of_mem _ hd))

/-- Setting a position to the value it already holds is a no-op. -/
theorem set_getElem_self {α : Type} {l : List α} {i : ℕ} {x : α}
    (h : l[i]? = some x) : l.set i x = l := by
  induction l generalizing i with
  | nil => cases h
  | cons a l ih =>
    cases i with
    | zero =>
      simp only [List.getElem?_cons_zero, Option.some.injEq] at h
      subst h
      rfl
    | succ i' =>
      simp only [List.getElem?_cons_succ] at h
      show a :: l.set i' x = a :: l
      rw [ih h]

/-- Restoring an available row after its decrement reproduces the row. -/
theorem restInv_updInv {inv : PharmacyInventory} {qty : ℤ}
    (hav : inv.is_available = true) :
    restInv (updInv inv qty) qty = inv := by
  cases inv with
  | mk iid pid q av =>
    simp only [restInv, updInv] at hav ⊢
    subst hav
    simp

/-- The restore loop of `cancel_my_order` exactly undoes the update loop of
`create_order`, provided ordered products are pairwise distinct and for
each of them the first table row of the product is the available row that
was decremented. -/
theorem restore_undoes_decrement :
    ∀ (ds : List OrderItemData) (invs : List PharmacyInventory),
      ds.Pairwise (fun a b => a.product_id ≠ b.product_id) →
      (∀ d ∈ ds, ∃ i, firstIdx invs d.product_id = some i ∧
        firstAvailIdx invs d.product_id = some i) →
      ds.foldl (fun acc d =>
          restoreFirstInventory acc d.product_id d.quantity)
        (applyInventoryUpdates invs ds) = invs := by
  intro ds
  induction ds with
  | nil => intro invs _ _; rfl
  | cons d t ih =>
    intro invs hpw hyp
    obtain ⟨i, hfi, hfa⟩ := hyp d (List.mem_cons_self _ _)
    obtain ⟨inv, hget, hpid, hav, hdec⟩ := decrementFirstAvailable_eq_set hfa
    obtain ⟨hhead, htail⟩ := List.pairwise_cons.mp hpw
    have hlen : i < invs.length := (List.getElem?_eq_some.mp hget).1
    have hupd_pid : (updInv inv d.quantity).product_id = inv.product_id := by
      simp [updInv]
    have hsetget : (invs.set i (updInv inv d.quantity))[i]? =
        some (updInv inv d.quantity) := by
      rw [List.getElem?_set_self (by simpa using hlen)]
    have htne : ∀ e ∈ t, e.product_id ≠ (updInv inv d.quantity).product_id := by
      intro e he hc
      exact hhead e he (by rw [hupd_pid, hpid] at hc; exact hc.symm)
    have hstep : applyInventoryUpdates invs (d :: t) =
        applyInventoryUpdates (invs.set i (updInv inv d.quantity)) t := by
      show applyInventoryUpdates
        (decrementFirstAvailable invs d.product_id d.quantity) t = _
      rw [hdec d.quantity]
    have hfiA : firstIdx (applyInventoryUpdates
        (invs.set i (updInv inv d.quantity)) t) d.product_id = some i := by
      rw [firstIdx_applyUpdates t _ d.product_id,
        firstIdx_set_pid hget (by simp [updInv]) d.product_id, hfi]
    have hgetA : (applyInventoryUpdates
        (invs.set i (updInv inv d.quantity)) t)[i]? =
        some (updInv inv d.quantity) :=
      applyInventoryUpdates_getElem_frame t _ i _ hsetget htne
    have hrest : restoreFirstInventory (applyInventoryUpdates
        (invs.set i (updInv inv d.quantity)) t) d.product_id d.quantity =
        applyInventoryUpdates invs t := by
      obtain ⟨inv', hget', -, hr⟩ := restoreFirstInventory_eq_set hfiA
      rw [hgetA] at hget'
      cases hget'
      rw [hr d.quantity, restInv_updInv hav]
      have hcomm := applyInventoryUpdates_set_comm t
        (invs.set i (updInv inv d.quantity)) i inv (updInv inv d.quantity)
        hsetget (by simp [updInv]) htne
      rw [← hcomm, List.set_set, set_getElem_self hget]
    show List.foldl _ (applyInventoryUpdates invs (d :: t)) (d :: t) = invs
    rw [List.foldl_cons, hstep, hrest]
    exact ih invs htail
      (fun e he => hyp e (List.mem_cons_of_mem _ he))

/-- C10 (amended): a successful `create_order` immediately followed by
`cancel_my_order` on the created (still "pending") order restores every
inventory quantity to its pre-order value — provided the customer's cart
has at most one row per product (the cart invariant), the fresh order id is
unused, and for each cart product the first inventory row of that product
is the available row that was decremented (the code's restore fetches the
first row regardless of availability, so with an unavailable row in front
the quantities would not return, see the counterexample).  Each such row is
available afterwards, the order ends "cancelled" with the supplied reason,
and cancelling any order whose status is outside pending/confirmed raises
the 400. -/
theorem create_then_cancel {db : DB} {cid : ℕ} {od : OrderCreate} {now : ℤ}
    {db' : DB} {o : Order} (reason : String) (now2 : ℤ)
    (h : create_order db cid od now = Except.ok (db', o))
    (hdistinct : (customerCart db cid).Pairwise
      (fun a b => a.product_id ≠ b.product_id))
    (hfirst : ∀ ci ∈ customerCart db cid,
      firstIdx db.inventories ci.product_id =
        firstAvailIdx db.inventories ci.product_id)
    (hfresh_items : ∀ oi ∈ db.order_items, oi.order_id ≠ db.next_order_id)
    (hfresh_orders : ∀ o' ∈ db.orders, o'.order_id ≠ db.next_order_id) :
    (∃ db'', cancel_my_order db' cid db.next_order_id reason now2 =
        Except.ok db'' ∧
      db''.inventories = db.inventories ∧
      (∀ ci ∈ customerCart db cid, ∃ i inv,
        firstIdx db''.inventories ci.product_id = some i ∧
        db''.inventories[i]? = some inv ∧ inv.is_available = true) ∧
      findOrder db'' cid db.next_order_id = some
        { o with
            status := "cancelled",
            cancellation_reason := some reason,
            cancelled_at := some now2, updated_at := now2 }) ∧
    (∀ (db₀ : DB) (cid₀ oid₀ : ℕ) (reason₀ : String) (now₀ : ℤ)
        (o₀ : Order),
      findOrder db₀ cid₀ oid₀ = some o₀ →
      o₀.status ≠ "pending" → o₀.status ≠ "confirmed" →
      cancel_my_order db₀ cid₀ oid₀ reason₀ now₀ =
        Except.error (Err.cannotCancel o₀.status) ∧
      Err.statusCode (Err.cannotCancel o₀.status) = 400) := by
  constructor
  · obtain ⟨t, items, -, -, -, hb, ho, hdb⟩ := create_order_ok_inv h
    have hmap := (buildOrderItems_map db _ t items hb).1
    have hds : items.Pairwise (fun a b => a.product_id ≠ b.product_id) := by
      have h1 : (items.map (fun d => d.product_id)).Pairwise
          (fun a b => a ≠ b) := by
        rw [hmap]
        exact List.pairwise_map.mpr hdistinct
      exact List.pairwise_map.mp h1
    have hyp : ∀ d ∈ items, ∃ i,
        firstIdx db.inventories d.product_id = some i ∧
        firstAvailIdx db.inventories d.product_id = some i := by
      intro d hd
      have hmem : d.product_id ∈ items.map (fun d => d.product_id) :=
        List.mem_map_of_mem _ hd
      rw [hmap] at hmem
      obtain ⟨ci, hci, hpidci⟩ := List.mem_map.mp hmem
      obtain ⟨p, -, inv, hinv, -⟩ :=
        buildOrderItems_checks db _ t items hb ci hci
      obtain ⟨i, hfa, -⟩ := findAvailableInventory_idx hinv
      rw [← hpidci]
      exact ⟨i, by rw [hfirst ci hci, hfa], hfa⟩
    have hfindo : findOrder db' cid db.next_order_id = some o := by
      subst hdb
      show ((db.orders ++ [o]).find? _) = some o
      rw [List.find?_append]
      have hnone : db.orders.find? (fun x =>
          x.order_id == db.next_order_id && x.customer_id == cid) = none := by
        rw [List.find?_eq_none]
        intro x hx
        simp [hfresh_orders x hx]
      rw [hnone]
      subst ho
      simp [mkNewOrder]
    have hfil : db'.order_items.filter
        (fun it => it.order_id == db.next_order_id) =
        items.map (mkOrderItemRow o.order_id) := by
      subst hdb
      show ((db.order_items ++ items.map (mkOrderItemRow o.order_id)).filter
        _) = _
      rw [List.filter_append]
      have h1 : db.order_items.filter (fun it =>
          it.order_id == db.next_order_id) = [] := by
        rw [List.filter_eq_nil_iff]
        intro a ha
        simp [hfresh_items a ha]
      have h2 : (items.map (mkOrderItemRow o.order_id)).filter (fun it =>
          it.order_id == db.next_order_id) =
          items.map (mkOrderItemRow o.order_id) := by
        rw [List.filter_eq_self]
        intro a ha
        obtain ⟨d, -, hda⟩ := List.mem_map.mp ha
        subst hda
        subst ho
        simp [mkOrderItemRow, mkNewOrder]
      rw [h1, h2, List.nil_append]
    have hstatus : (o.status == "pending" || o.status == "confirmed") =
        true := by
      subst ho
      rfl
    have hinvfold : (db'.order_items.filter
        (fun it => it.order_id == db.next_order_id)).foldl
        (fun acc it => restoreFirstInventory acc it.product_id it.quantity)
        db'.inventories = db.inventories := by
      rw [hfil]
      subst hdb
      show (items.map (mkOrderItemRow o.order_id)).foldl _
        (applyInventoryUpdates db.inventories items) = _
      rw [List.foldl_map]
      exact restore_undoes_decrement items db.inventories hds hyp
    have havail : ∀ ci ∈ customerCart db cid, ∃ i inv,
        firstIdx db.inventories ci.product_id = some i ∧
        db.inventories[i]? = some inv ∧ inv.is_available = true := by
      intro ci hci
      obtain ⟨p, -, inv, hinv, -⟩ :=
        buildOrderItems_checks db _ t items hb ci hci
      obtain ⟨i, hfa, hget⟩ := findAvailableInventory_idx hinv
      obtain ⟨inv', hget', -, hav', -⟩ := decrementFirstAvailable_eq_set hfa
      rw [hget] at hget'
      cases hget'
      exact ⟨i, inv, by rw [hfirst ci hci, hfa], hget, hav'⟩
    refine ⟨{ db' with
        orders := replaceFirstOrder db'.orders db.next_order_id cid
          { o with
              status := "cancelled",
              cancellation_reason := some reason,
              cancelled_at := some now2, updated_at := now2 },
        inventories := (db'.order_items.filter
            (fun it => it.order_id == db.next_order_id)).foldl
          (fun acc it =>
            restoreFirstInventory acc it.product_id it.quantity)
          db'.inventories }, ?_, ?_, ?_, ?_⟩
    · simp only [cancel_my_order, hfindo]
      rw [if_pos hstatus]
    · exact hinvfold
    · intro ci hci
      obtain ⟨i, inv, h1, h2, h3⟩ := havail ci hci
      exact ⟨i, inv, hinvfold.symm ▸ h1, hinvfold.symm ▸ h2, h3⟩
    · exact find_replaceFirstOrder hfindo (by subst ho; rfl)
        (by subst ho; rfl)
  · intro db₀ cid₀ oid₀ reason₀ now₀ o₀ hf hnp hnc
    have hst : (o₀.status == "pending" || o₀.status == "confirmed") =
        false := by
      simp [hnp, hnc]
    constructor
    · simp only [cancel_my_order, hf]
      rw [if_neg (by simp [hst])]
    · rfl

/-- Two inventory rows for the same product, the unavailable one first. -/
def cexInvA : PharmacyInventory :=
  { inventory_id := 1, product_id := 1, quantity_in_stock := 5,
    is_available := false }

def cexInvB : PharmacyInventory :=
  { inventory_id := 2, product_id := 1, quantity_in_stock := 10,
    is_available := true }

def cexCartItem : CartItem :=
  { cart_item_id := 1, customer_id := 7, product_id := 1, quantity := 2 }

def cexDB : DB :=
  { products := [sampleProduct],
    cart_items := [cexCartItem],
    inventories := [cexInvA, cexInvB],
    prescriptions := [], addresses := [], orders := [], order_items := [],
    refunds := [], payments := [], next_order_id := 1 }

def cexOrder : Order := mkNewOrder cexDB 7 sampleOrderCreate 0 100

def cexDB1 : DB := commitCreateOrder cexDB 7 cexOrder sampleItemsData

def cexCancelledOrder : Order :=
  { cexOrder with
      status := "cancelled", cancellation_reason := some "late",
      cancelled_at := some 0, updated_at := 0 }

def cexDB2 : DB :=
  { cexDB1 with
      orders := [cexCancelledOrder],
      inventories :=
        [{ cexInvA with quantity_in_stock := 7, is_available := true },
         { cexInvB with quantity_in_stock := 8 }] }

/-- C10 counterexample: with an unavailable row in front of the available
one for the same product, `create_order` decrements the second row (the
first available) but `cancel_my_order` restores the first row (first by
table order, regardless of availability), so the decremented row stays at
8 instead of returning to 10 and the other row jumps from 5 to 7. -/
theorem create_then_cancel_counterexample :
    create_order cexDB 7 sampleOrderCreate 0 =
      Except.ok (cexDB1, cexOrder) ∧
    cexOrder.status = "pending" ∧
    cancel_my_order cexDB1 7 1 "late" 0 = Except.ok cexDB2 ∧
    cexDB.inventories[1]? = some cexInvB ∧
    cexInvB.quantity_in_stock = 10 ∧
    cexDB2.inventories[1]? = some { cexInvB with quantity_in_stock := 8 } ∧
    cexDB2.inventories ≠ cexDB.inventories := by
  refine ⟨?_, rfl, ?_, by decide, by decide, by decide, by decide⟩
  · norm_num [create_order, shippingAddressOk, sampleOrderCreate,
      customerCart, cexDB, cexCartItem, prescriptionRequiredItems,
      findProduct, sampleProduct, hasApprovedPrescription, buildOrderItems,
      findAvailableInventory, cexInvA, cexInvB, cexDB1, cexOrder,
      commitCreateOrder, mkNewOrder, mkOrderItemRow, applyInventoryUpdates,
      decrementFirstAvailable, sampleItemsData]
  · norm_num [cancel_my_order, findOrder, cexDB1, cexDB2, cexOrder,
      commitCreateOrder, mkNewOrder, mkOrderItemRow, applyInventoryUpdates,
      decrementFirstAvailable, restoreFirstInventory, replaceFirstOrder,
      sampleItemsData, cexDB, cexCartItem, cexInvA, cexInvB,
      sampleOrderCreate, sampleProduct, cexCancelledOrder]

/-- Witness for C10 (amended): the sample run followed by its cancellation,
with all side conditions discharged concretely. -/
theorem create_then_cancel_witness :
    (∃ db'', cancel_my_order sampleNewDB 7 sampleDB.next_order_id
        "changed mind" 3600 = Except.ok db'' ∧
      db''.inventories = sampleDB.inventories ∧
      (∀ ci ∈ customerCart sampleDB 7, ∃ i inv,
        firstIdx db''.inventories ci.product_id = some i ∧
        db''.inventories[i]? = some inv ∧ inv.is_available = true) ∧
      findOrder db'' 7 sampleDB.next_order_id = some
        { sampleNewOrder with
            status := "cancelled",
            cancellation_reason := some "changed mind",
            cancelled_at := some 3600, updated_at := 3600 }) ∧
    (∀ (db₀ : DB) (cid₀ oid₀ : ℕ) (reason₀ : String) (now₀ : ℤ)
        (o₀ : Order),
      findOrder db₀ cid₀ oid₀ = some o₀ →
      o₀.status ≠ "pending" → o₀.status ≠ "confirmed" →
      cancel_my_order db₀ cid₀ oid₀ reason₀ now₀ =
        Except.error (Err.cannotCancel o₀.status) ∧
      Err.statusCode (Err.cannotCancel o₀.status) = 400) :=
  create_then_cancel "changed mind" 3600 sample_create_ok (by decide)
    (by decide) (by decide) (by decide)
